import Mathlib

/-!
Verification of the ptwiki2text pipeline (src/wiki_parser.py and
src/corpus_builder.py): a shallow embedding of `filter_markup`, `clean_text`,
the clitic pre-pass, the lexical tokenizer and the per-sentence filtering of
`tokenize`, with theorems settling the specification claims.

Strings are modelled as `List Char`; each Python `re.sub` pass is embedded as
an executable scanner faithful to the behaviour of the concrete pattern.
Python character classes are modelled as follows: `\s` is the explicit
whitespace set; `\w` (with `re.UNICODE` semantics) is approximated by
ASCII alphanumerics, `_`, and the Latin-1/Latin-Extended letter range
(covering all Portuguese letters); `\d` is approximated by ASCII digits.
-/

set_option maxRecDepth 100000

namespace PtWiki

/-! ## Character classes (Python `re` approximations) -/

/-- Python `\s`: the whitespace characters. -/
def isSpacePy (c : Char) : Bool :=
  c = ' ' || c = '\t' || c = '\n' || c = '\x0d' || c = '\x0b' || c = '\x0c'

/-- Letters of the Latin-1 supplement / Latin Extended-A/B blocks
(approximating the non-ASCII letters Python's unicode `\w` accepts;
this covers every accented letter of Portuguese). `×` (0xD7) and
`÷` (0xF7) are excluded, as in Unicode. -/
def isLatinExtLetter (c : Char) : Bool :=
  0xC0 ≤ c.toNat && c.toNat ≤ 0x24F && c.toNat ≠ 0xD7 && c.toNat ≠ 0xF7

/-- Python `\w` (unicode): alphanumerics, underscore, accented letters. -/
def isWordPy (c : Char) : Bool :=
  c.isAlphanum || c = '_' || isLatinExtLetter c

/-- Python `\d`, approximated by ASCII digits. -/
def isDigitPy (c : Char) : Bool := c.isDigit

/-- Python `[^\W\d_]`: a word character that is neither a digit nor `_`,
i.e. a letter. -/
def isLetterPy (c : Char) : Bool := isWordPy c && !isDigitPy c && c ≠ '_'

/-! ## Small list/string utilities -/

/-- Python `pat in s` (substring test). -/
def occursIn (pat : List Char) : List Char → Bool
  | [] => pat.isPrefixOf []
  | c :: rest => pat.isPrefixOf (c :: rest) || occursIn pat rest

/-- Number of non-overlapping occurrences of a non-empty pattern,
scanning left to right (as `re.findall` would count literal matches). -/
def countOccur (pat : List Char) : Nat → List Char → Nat
  | _, [] => 0
  | 0, _ => 0
  | fuel + 1, c :: rest =>
    if pat.isPrefixOf (c :: rest) && pat.length ≠ 0 then
      1 + countOccur pat fuel ((c :: rest).drop pat.length)
    else
      countOccur pat fuel rest

/-- Substring test on `String`s. -/
def strOccurs (pat s : String) : Bool := occursIn pat.data s.data

/-- Count of non-overlapping occurrences on `String`s. -/
def strCount (pat s : String) : Nat := countOccur pat.data s.data.length s.data

/-- Python `text.split('\n')` on character lists: split at every newline,
keeping empty pieces. -/
def splitNl : List Char → List (List Char)
  | [] => [[]]
  | c :: rest =>
    if c = '\n' then [] :: splitNl rest
    else
      match splitNl rest with
      | [] => [[c]]
      | piece :: more => (c :: piece) :: more

/-- `s.strip() == ''` in Python is equivalent to: every character is
whitespace. -/
def isBlank (s : List Char) : Bool := s.all isSpacePy

/-- Character-level balance check for `{`/`}` and `[`/`]` (used only to
certify that counterexample inputs are well nested, not part of the
embedded program). -/
def balOk (s : List Char) : Bool :=
  go s 0 0
where
  go : List Char → Nat → Nat → Bool
  | [], br, bk => br = 0 && bk = 0
  | c :: rest, br, bk =>
    if c = '{' then go rest (br + 1) bk
    else if c = '}' then (br ≠ 0) && go rest (br - 1) bk
    else if c = '[' then go rest br (bk + 1)
    else if c = ']' then (bk ≠ 0) && go rest br (bk - 1)
    else go rest br bk

/-! ## `clean_text` (src/corpus_builder.py lines 109-137)

Each `re.sub` pass is embedded as a direct scanner.  Scanning semantics
follow `re.sub`: leftmost match, replacement emitted, scan resumes after
the consumed characters (lookarounds consume nothing and inspect the
original text). -/

/-- The quote class of line 118, `[‘’′`']`. -/
def quoteCls1 (c : Char) : Bool :=
  c = '‘' || c = '’' || c = '′' || c = '`' || c = '\''

/-- The quote class of line 119, `[‘’`′']` (same character set). -/
def quoteCls2 (c : Char) : Bool :=
  c = '‘' || c = '’' || c = '`' || c = '′' || c = '\''

/-- Line 118: `re.sub(ur"(?u)(\W)[‘’′`']", r'\1"', text)` — an opening-side
quote glyph preceded by a non-word character becomes `"`. -/
def quoteSub1 : List Char → List Char
  | c1 :: c2 :: rest =>
    if !isWordPy c1 && quoteCls1 c2 then c1 :: '"' :: quoteSub1 rest
    else c1 :: quoteSub1 (c2 :: rest)
  | s => s

/-- Line 119: `re.sub(ur"(?u)[‘’`′'](\W)", r'"\1', text)`. -/
def quoteSub2 : List Char → List Char
  | c1 :: c2 :: rest =>
    if quoteCls2 c1 && !isWordPy c2 then '"' :: c2 :: quoteSub2 rest
    else c1 :: quoteSub2 (c2 :: rest)
  | s => s

/-- Line 120: `re.sub(ur'(?u)[«»“”]', '"', text)`. -/
def quoteSub3 (s : List Char) : List Char :=
  s.map fun c => if c = '«' || c = '»' || c = '“' || c = '”' then '"' else c

/-- Line 124: `re.sub(r'(?<!\.)\.\.(?!\.)', '.', text)` — an isolated
double dot becomes a single dot.  `prev` is the character of the original
text just before the scan position (for the lookbehind). -/
def dotSub (prev : Option Char) : List Char → List Char
  | '.' :: '.' :: rest =>
    if prev ≠ some '.' && rest.head? ≠ some '.' then
      '.' :: dotSub (some '.') rest
    else
      '.' :: dotSub (some '.') ('.' :: rest)
  | c :: rest => c :: dotSub (some c) rest
  | [] => []

/-- The punctuation class of line 125, `[,";:]`. -/
def punctCls (c : Char) : Bool := c = ',' || c = '"' || c = ';' || c = ':'

/-- Line 125: `re.sub(r'([,";:])\1,', r'\1', text)` — a doubled punctuation
mark followed by a comma collapses to the single mark. -/
def punctSub : List Char → List Char
  | c1 :: c2 :: ',' :: rest =>
    if punctCls c1 && c2 = c1 then c1 :: punctSub rest
    else c1 :: punctSub (c2 :: ',' :: rest)
  | c :: rest => c :: punctSub rest
  | [] => []

/-- Line 129: `re.sub(' -(?=[^\W\d_])', ' - ', text)` — insert a space after
a leading hyphen that abuts a letter (the lookahead is not consumed). -/
def hyphenSub : List Char → List Char
  | ' ' :: '-' :: rest =>
    if (rest.head?.map isLetterPy).getD false then
      ' ' :: '-' :: ' ' :: hyphenSub rest
    else
      ' ' :: hyphenSub ('-' :: rest)
  | c :: rest => c :: hyphenSub rest
  | [] => []

/-- Line 132: `re.sub(r'\d', '9', text)` — digit folding. -/
def digitSub (s : List Char) : List Char :=
  s.map fun c => if isDigitPy c then '9' else c

/-- Line 135: `text.replace(u'…', '...')`. -/
def ellipsisChar (c : Char) : List Char :=
  if c = '…' then ['.', '.', '.'] else [c]

/-- Line 135 as a list transformation. -/
def ellipsisSub (s : List Char) : List Char := s.flatMap ellipsisChar

/-- `clean_text(text, correct)` of src/corpus_builder.py lines 109-137:
quote unification, optional punctuation correction, digit folding,
ellipsis normalization, in source order. -/
def cleanTextL (s : List Char) (correct : Bool) : List Char :=
  let t := quoteSub3 (quoteSub2 (quoteSub1 s))
  let t := if correct then hyphenSub (punctSub (dotSub none t)) else t
  ellipsisSub (digitSub t)

/-- String-level wrapper for `clean_text`. -/
def clean_text (s : String) (correct : Bool) : String :=
  ⟨cleanTextL s.data correct⟩

/-- String-level digit-folding pass (line 132). -/
def replaceDigits (s : String) : String := ⟨digitSub s.data⟩

/-- String-level ellipsis pass (line 135). -/
def replaceEllipsis (s : String) : String := ⟨ellipsisSub s.data⟩

/-! ## Clitic pronoun splitting (src/corpus_builder.py lines 43-54, 74)

`_clitic_regexp = (?<=\w)-(me|te|o|a|no|na|lo|la|se|lhe|lho|lha|lhos|lhas|
nos|vos|os|as|nos|nas|los|las|lhes)(?![-\w])`, substituted with `'- \1'`.
Python tries the alternatives in source order and, when the lookahead fails,
backtracks to the next alternative. -/

/-- The pronoun alternatives, in the order they appear in the source
(including the duplicated `nos`). -/
def pronounsSrc : List String :=
  ["me", "te", "o", "a", "no", "na", "lo", "la", "se",
   "lhe", "lho", "lha", "lhos", "lhas",
   "nos", "vos",
   "os", "as", "nos", "nas", "los", "las",
   "lhes"]

/-- First pronoun alternative (in source order) that is a prefix of `rest`
and whose match is not followed by a word character or hyphen. -/
def tryPronoun (rest : List Char) : Option (List Char) :=
  pronounsSrc.findSome? fun p =>
    if p.data.isPrefixOf rest &&
        (match (rest.drop p.data.length).head? with
         | some d => !(isWordPy d || d = '-')
         | none => true) then
      some p.data
    else none

/-- The clitic substitution scanner.  `prevWord` records whether the
character of the original text just before the scan position is a word
character (the `(?<=\w)` lookbehind).  Fuel is structural and bounds the
number of scan steps; every step consumes at least one character, so
`length + 1` fuel is always sufficient. -/
def cliticGo : Nat → Bool → List Char → List Char
  | _, _, [] => []
  | 0, _, s => s
  | fuel + 1, prevWord, c :: rest =>
    if c = '-' && prevWord then
      match tryPronoun rest with
      | some pr =>
        '-' :: ' ' :: (pr ++
          cliticGo fuel ((pr.getLast?.map isWordPy).getD true) (rest.drop pr.length))
      | none => c :: cliticGo fuel false rest
    else c :: cliticGo fuel (isWordPy c) rest

/-- `_clitic_regexp.sub(r'- \1', text)` (line 74). -/
def cliticSubL (s : List Char) : List Char := cliticGo (s.length + 1) false s

/-! ## The lexical tokenizer (src/corpus_builder.py lines 21-40, 97)

`_tokenizer_regexp` is an ordered alternation; `RegexpTokenizer` returns
the non-overlapping leftmost matches (`re.findall` semantics).  The
pattern is embedded as a value of a small pattern language `Pat` with a
total, backtracking CPS matcher `runP`.  Since every starred sub-pattern
of the tokenizer consumes at least one character per repetition, stars
are unrolled to the length of the remaining input (`starU`), which keeps
the matcher structurally recursive and kernel-computable. -/

/-- Names for the character classes appearing in `_tokenizer_regexp`. -/
inductive ClassId where
  | letter      -- `[^\W\d_]`
  | digit       -- `\d`
  | word        -- `\w`
  | wordAscii   -- `[A-Za-z_]`
  | dot         -- `\.`
  | dash        -- `-`
  | colon       -- `:`
  | dollar      -- `\$`
  | comma       -- `,`
  | hashAt      -- `[\#@]`
  | sepDate     -- `[-\\/]`
  | hyphApos    -- `[-']`
  | clsDR       -- `[DSds]` (first letter of dr./sr.)
  | clsRR       -- `[Rr]`
  | clsAA       -- `[Aa]`
  | clsMM       -- `[Mm]`
  | clsSS       -- `[Ss]`
  | clsCC       -- `[Cc]`
  | clsPP       -- `[Pp]`
  | clsHH       -- `[Hh]`
  | clsDD       -- `[Dd]`
  | nonSpace    -- `\S`
  deriving DecidableEq

/-- Interpretation of a class as a character predicate. -/
def interpCls : ClassId → Char → Bool
  | .letter, c => isLetterPy c
  | .digit, c => isDigitPy c
  | .word, c => isWordPy c
  | .wordAscii, c => c.isAlpha || c = '_'
  | .dot, c => c = '.'
  | .dash, c => c = '-'
  | .colon, c => c = ':'
  | .dollar, c => c = '$'
  | .comma, c => c = ','
  | .hashAt, c => c = '#' || c = '@'
  | .sepDate, c => c = '-' || c = '\\' || c = '/'
  | .hyphApos, c => c = '-' || c = '\''
  | .clsDR, c => c = 'D' || c = 'S' || c = 'd' || c = 's'
  | .clsRR, c => c = 'R' || c = 'r'
  | .clsAA, c => c = 'A' || c = 'a'
  | .clsMM, c => c = 'M' || c = 'm'
  | .clsSS, c => c = 'S' || c = 's'
  | .clsCC, c => c = 'C' || c = 'c'
  | .clsPP, c => c = 'P' || c = 'p'
  | .clsHH, c => c = 'H' || c = 'h'
  | .clsDD, c => c = 'D' || c = 'd'
  | .nonSpace, c => !isSpacePy c

/-- Patterns: ε, a character class, a literal, sequencing, ordered
alternation, and greedy option.  Greedy star is expressed by unrolling
(`starU`). -/
inductive Pat where
  | eps
  | cls (i : ClassId)
  | lit (l : List Char)
  | seq (a b : Pat)
  | alt (a b : Pat)
  | opt (a : Pat)

/-- Backtracking CPS matcher: `runP p s k` matches `p` at the front of
`s` and runs continuation `k` on the remainder, returning the total
number of characters consumed (pattern plus continuation).  Alternation
is ordered (first success wins) and `opt` is greedy, as in Python `re`. -/
def runP : Pat → List Char → (List Char → Option Nat) → Option Nat
  | .eps, s, k => k s
  | .cls i, s, k =>
    match s with
    | [] => none
    | c :: rest => if interpCls i c then (k rest).map (· + 1) else none
  | .lit l, s, k =>
    if l.isPrefixOf s then (k (s.drop l.length)).map (· + l.length) else none
  | .seq a b, s, k => runP a s fun s' => runP b s' k
  | .alt a b, s, k => (runP a s k).orElse fun _ => runP b s k
  | .opt a, s, k => (runP a s k).orElse fun _ => k s

/-- Greedy star, unrolled to at most `n` repetitions (enough whenever each
repetition consumes at least one character and `n` bounds the input
length). -/
def starU (a : Pat) : Nat → Pat
  | 0 => .eps
  | n + 1 => .opt (.seq a (starU a n))

/-- Greedy plus: one repetition followed by an unrolled star. -/
def plusU (a : Pat) (n : Nat) : Pat := .seq a (starU a n)

/-- Greedy `{1,3}` repetition: `a (a (a)?)?`. -/
def rep13 (a : Pat) : Pat := .seq a (.opt (.seq a (.opt a)))

/-- Build a right-nested ordered alternation; the empty list is `eps`
(never used). -/
def mkAlt : List Pat → Pat
  | [] => .eps
  | [p] => p
  | p :: q :: rest => .alt p (mkAlt (q :: rest))

/-- `([^\W\d_]\.)+` — runs of single-letter abbreviations. -/
def altAbbrev (n : Nat) : Pat := plusU (.seq (.cls .letter) (.cls .dot)) n

/-- `\d{1,3}(\.\d{3})*(,\d+)` — dot-thousands, comma-decimal numbers. -/
def altNumDot (n : Nat) : Pat :=
  .seq (rep13 (.cls .digit))
    (.seq (starU (.seq (.cls .dot) (.seq (.cls .digit) (.seq (.cls .digit) (.cls .digit)))) n)
      (.seq (.cls .comma) (plusU (.cls .digit) n)))

/-- `\d{1,3}(,\d{3})*(\.\d+)` — comma-thousands, dot-decimal numbers. -/
def altNumComma (n : Nat) : Pat :=
  .seq (rep13 (.cls .digit))
    (.seq (starU (.seq (.cls .comma) (.seq (.cls .digit) (.seq (.cls .digit) (.cls .digit)))) n)
      (.seq (.cls .dot) (plusU (.cls .digit) n)))

/-- `\d+:\d+` — time and proportions. -/
def altTime (n : Nat) : Pat :=
  .seq (plusU (.cls .digit) n) (.seq (.cls .colon) (plusU (.cls .digit) n))

/-- `\d+([-\\/]\d+)*` — dates. -/
def altDate (n : Nat) : Pat :=
  .seq (plusU (.cls .digit) n) (starU (.seq (.cls .sepDate) (plusU (.cls .digit) n)) n)

/-- `[DSds][Rr][Aa]?\.` — dr., sr., sra., dra. -/
def altDr : Pat :=
  .seq (.cls .clsDR) (.seq (.cls .clsRR) (.seq (.opt (.cls .clsAA)) (.cls .dot)))

/-- `[Mm]\.?[Ss][Cc]\.?` — M.Sc. -/
def altMsc : Pat :=
  .seq (.cls .clsMM) (.seq (.opt (.cls .dot))
    (.seq (.cls .clsSS) (.seq (.cls .clsCC) (.opt (.cls .dot)))))

/-- `[Pp][Hh]\.?[Dd]\.?` — Ph.D. -/
def altPhd : Pat :=
  .seq (.cls .clsPP) (.seq (.cls .clsHH)
    (.seq (.opt (.cls .dot)) (.seq (.cls .clsDD) (.opt (.cls .dot)))))

/-- `[^\W\d_]{1,2}\$` — currency. -/
def altCurrency : Pat :=
  .seq (.cls .letter) (.seq (.opt (.cls .letter)) (.cls .dollar))

/-- `[\#@]\w*[A-Za-z_]+\w*` — hashtags and mentions (the
`(?:(?<=\s)|^)` lookbehind is handled by the scanner flag). -/
def altHashtag (n : Nat) : Pat :=
  .seq (.cls .hashAt) (.seq (starU (.cls .word) n)
    (.seq (plusU (.cls .wordAscii) n) (starU (.cls .word) n)))

/-- `\w+([-']\w+)*-?` — words with hyphens/apostrophes, optional
trailing hyphen. -/
def altWord (n : Nat) : Pat :=
  .seq (plusU (.cls .word) n)
    (.seq (starU (.seq (.cls .hyphApos) (plusU (.cls .word) n)) n) (.opt (.cls .dash)))

/-- `-+` — runs of dashes. -/
def altDashes (n : Nat) : Pat := plusU (.cls .dash) n

/-- `\.{3,}` — ellipsis. -/
def altDots (n : Nat) : Pat :=
  .seq (.cls .dot) (.seq (.cls .dot) (plusU (.cls .dot) n))

/-- `__LINK__` — the link sentinel alternative. -/
def altLink : Pat := .lit "__LINK__".data

/-- The full `_tokenizer_regexp` as an ordered alternation.  `allow` is
true when the hashtag lookbehind `(?:(?<=\s)|^)` holds at the current
position; `n` bounds the remaining input length (for star unrolling). -/
def lexPat (allow : Bool) (n : Nat) : Pat :=
  mkAlt ([altAbbrev n, altNumDot n, altNumComma n, altTime n, altDate n,
          altDr, altMsc, altPhd, altCurrency] ++
         (if allow then [altHashtag n] else []) ++
         [altWord n, altDashes n, altDots n, altLink, .cls .nonSpace])

/-- The trivial continuation: accept, consuming nothing further. -/
def epsK : List Char → Option Nat := fun _ => some 0

/-- Syntactic check that every literal of a pattern consists of
non-whitespace characters (classes are covered semantically by
`interpCls_not_space`). -/
def litsNonSpace : Pat → Bool
  | .eps => true
  | .cls _ => true
  | .lit l => l.all fun c => !isSpacePy c
  | .seq a b => litsNonSpace a && litsNonSpace b
  | .alt a b => litsNonSpace a && litsNonSpace b
  | .opt a => litsNonSpace a

/-- Syntactic check that a pattern never matches the empty string. -/
def neverEmpty : Pat → Bool
  | .eps => false
  | .cls _ => true
  | .lit l => !l.isEmpty
  | .seq a b => neverEmpty a || neverEmpty b
  | .alt a b => neverEmpty a && neverEmpty b
  | .opt _ => false

/-- A continuation is good when it consumes at most its input and only
non-whitespace characters. -/
def KGood (k : List Char → Option Nat) : Prop :=
  ∀ s m, k s = some m → m ≤ s.length ∧ ∀ c ∈ s.take m, isSpacePy c = false

/-- The findall-style scanner of `RegexpTokenizer`: at each position, try
the alternation; on a match emit the consumed characters as a token and
resume after them, otherwise skip one character.  The `allow` flag tracks
whether the hashtag lookbehind would succeed (start of string, or
previous original character is whitespace). -/
def lexScanGo : Nat → Bool → List Char → List (List Char)
  | _, _, [] => []
  | 0, _, _ :: _ => []
  | fuel + 1, allow, c :: rest =>
    let s := c :: rest
    match runP (lexPat allow s.length) s epsK with
    | some n =>
      if n = 0 then
        -- unreachable: every alternative consumes at least one character
        lexScanGo fuel (isSpacePy c) rest
      else
        s.take n ::
          lexScanGo fuel (((s.take n).getLast?.map isSpacePy).getD allow) (s.drop n)
    | none => lexScanGo fuel (isSpacePy c) rest

/-- `_tokenizer.tokenize(p)` (line 97): the token list of one sentence. -/
def lexScan (s : List Char) : List (List Char) := lexScanGo (s.length + 1) true s

/-- String-level tokens of one sentence. -/
def tokenizeSentence (p : String) : List String := (lexScan p.data).map fun t => ⟨t⟩

/-! ## A matcher kit for the `filter_markup` regex passes
(src/wiki_parser.py lines 98-229)

A matcher (`M`) consumes a prefix of its input and returns the consumed
length; a finder (`F`) additionally computes the replacement text for the
consumed span.  `subScanF` then implements `re.sub` scanning semantics:
leftmost match, replacement emitted (and not rescanned), scanning resumes
after the consumed span.  Fuel is structural; every scan step consumes at
least one input character, so `length + 1` fuel is always sufficient. -/

/-- A matcher: consumed prefix length of the input, or `none`. -/
abbrev M := List Char → Option Nat

/-- ASCII case folding (approximating Python's `(?i)` for the ASCII
literals appearing in the patterns). -/
def toLowerPy (c : Char) : Char := c.toLower

/-- Literal matcher. -/
def litM (pat : List Char) : M := fun s =>
  if pat.isPrefixOf s then some pat.length else none

/-- Case-insensitive literal matcher. -/
def litCiM (pat : List Char) : M := fun s =>
  if (s.take pat.length).map toLowerPy = pat.map toLowerPy then some pat.length
  else none

/-- Single character of a class. -/
def chM (p : Char → Bool) : M := fun s =>
  match s with
  | [] => none
  | c :: _ => if p c then some 1 else none

/-- Sequencing of matchers. -/
def seqM (a b : M) : M := fun s =>
  (a s).bind fun n => (b (s.drop n)).map fun m => n + m

/-- Ordered alternation of matchers. -/
def orM (a b : M) : M := fun s => (a s).orElse fun _ => b s

/-- Greedy option (no backtracking; used only where the following
pattern cannot overlap with the optional part). -/
def optM (a : M) : M := fun s => some ((a s).getD 0)

/-- Greedy class star `p*` (cannot fail). -/
def manyM (p : Char → Bool) : M := fun s => some (s.takeWhile p).length

/-- Greedy class plus `p+`. -/
def many1M (p : Char → Bool) : M := fun s =>
  let n := (s.takeWhile p).length
  if n = 0 then none else some n

/-- Lazy `X*?stop` where `X` is restricted to `allowed`: consume the
fewest allowed characters after which `stop` matches; the returned length
includes the `stop` match. -/
def lazyUntil (allowed : Char → Bool) (stop : M) : List Char → Option Nat
  | [] => stop []
  | c :: rest =>
    match stop (c :: rest) with
    | some m => some m
    | none =>
      if allowed c then (lazyUntil allowed stop rest).map fun m => m + 1
      else none

/-- Lazy `X+?stop`: at least one allowed character before the stop. -/
def lazy1Until (allowed : Char → Bool) (stop : M) : M := fun s =>
  match s with
  | [] => none
  | c :: rest =>
    if allowed c then (lazyUntil allowed stop rest).map fun m => m + 1
    else none

/-- Greedy `.*stop` with DOTALL: consume up to and including the last
match of `stop` (the backtracking behaviour of a greedy `.*`). -/
def lastUntil (stop : M) : List Char → Option Nat
  | [] => stop []
  | c :: rest =>
    match lastUntil stop rest with
    | some m => some (m + 1)
    | none => stop (c :: rest)

/-- A finder: consumed length plus replacement text. -/
abbrev F := List Char → Option (Nat × List Char)

/-- Finder with a constant replacement. -/
def constF (m : M) (repl : List Char) : F := fun s =>
  (m s).map fun n => (n, repl)

/-- `re.sub` scanning: at each position try the finder; on a match emit
the replacement and resume after the consumed span, otherwise keep the
character. -/
def subScanF (find : F) : Nat → List Char → List Char
  | _, [] => []
  | 0, s => s
  | fuel + 1, c :: rest =>
    match find (c :: rest) with
    | some (n, r) =>
      if n = 0 then c :: subScanF find fuel rest
      else r ++ subScanF find fuel ((c :: rest).drop n)
    | none => c :: subScanF find fuel rest

/-- One full `re.sub` pass. -/
def subF (find : F) (s : List Char) : List Char := subScanF find (s.length + 1) s

/-- `re.subn` scanning: like `subScanF` but also counts replacements. -/
def subCountScan (find : F) : Nat → List Char → List Char × Nat
  | _, [] => ([], 0)
  | 0, s => (s, 0)
  | fuel + 1, c :: rest =>
    match find (c :: rest) with
    | some (n, r) =>
      if n = 0 then
        let (t, k) := subCountScan find fuel rest
        (c :: t, k)
      else
        let (t, k) := subCountScan find fuel ((c :: rest).drop n)
        (r ++ t, k + 1)
    | none =>
      let (t, k) := subCountScan find fuel rest
      (c :: t, k)

/-- One full `re.subn` pass. -/
def subnF (find : F) (s : List Char) : List Char × Nat :=
  subCountScan find (s.length + 1) s

/-! ## The passes of `filter_markup` (src/wiki_parser.py lines 98-229) -/

/-- Line 108: `re.sub('(?s)<!--.*?-->', "", t)`. -/
def commentF : F :=
  constF (seqM (litM "<!--".data) (lazyUntil (fun _ => true) (litM "-->".data))) []

/-- One repetition of line 110's group:
`\n\[\[[a-z][a-z][\w-]*:[^:\]]+\]\]`. -/
def langListRep : M :=
  seqM (litM "\n[[".data)
    (seqM (chM fun c => 'a' ≤ c && c ≤ 'z')
      (seqM (chM fun c => 'a' ≤ c && c ≤ 'z')
        (seqM (manyM fun c => isWordPy c || c = '-')
          (seqM (litM ":".data)
            (seqM (many1M fun c => c ≠ ':' && c ≠ ']')
              (litM "]]".data))))))

/-- Lengths of the maximal greedy run of line-110 repetitions. -/
def langListReps : Nat → List Char → List Nat
  | 0, _ => []
  | fuel + 1, s =>
    match langListRep s with
    | some n => if n = 0 then [] else n :: langListReps fuel (s.drop n)
    | none => []

/-- Line 110: `re.sub("(\n\[\[[a-z][a-z][\w-]*:[^:\]]+\]\])+($|\n)", "", t)`
— the trailing interlanguage-link block.  The group `($|\n)` is satisfied by
the end of input, by a following newline, or (backtracking one repetition)
by the newline that begins the last repetition. -/
def langListF : F := fun s =>
  let reps := langListReps s.length s
  match reps with
  | [] => none
  | _reps1 :: _ =>
    let full := reps.foldl (· + ·) 0
    match (s.drop full).head? with
    | none => some (full, [])
    | some '\n' => some (full + 1, [])
    | some _ =>
      match reps with
      | [_] => none
      | _ => some (full - (reps.getLast?.getD 0) + 1, [])

/-- Line 112: `re.sub('(?i)\[\[:?Categoria:(.*?)\]\]', '', t)`
(`.` does not cross newlines here: no DOTALL flag). -/
def categoriaF : F :=
  constF (seqM (litM "[[".data)
    (seqM (optM (litM ":".data))
      (seqM (litCiM "Categoria:".data)
        (lazyUntil (fun c => c ≠ '\n') (litM "]]".data))))) []

/-- Matcher for two closing braces. -/
def closeBr2 : M := fun s =>
  match s with
  | '}' :: '}' :: _ => some 2
  | _ => none

/-- Search for the terminator `(\n\1\s|$)` of the section patterns of
lines 115-117: lazily skip characters (DOTALL) until a newline followed
by `k` `=` signs and one whitespace character, or the end of input.
Returns (characters skipped, terminator length). -/
def sectionTermSearch (k : Nat) : List Char → Option (Nat × Nat)
  | [] => some (0, 0)
  | c :: rest =>
    if c = '\n' && (List.replicate k '=').isPrefixOf rest &&
        ((rest.drop k).head?.map isSpacePy).getD false then
      some (0, 1 + k + 1)
    else
      (sectionTermSearch k rest).map fun p => (p.1 + 1, p.2)

/-- Lines 115-117:
`re.sub(u'(?is)\n(=+)\s*(?:{{)?TITLE(?:}})?\s*\1.*?(\n\1\s|$)', '\\2', t)`.
The replacement is the matched terminator group.  The leading `(=+)` needs
no count backtracking: with a shorter run the scan position rests on `=`,
which neither `\s*`, `{{`, nor the title can consume.  Likewise the two
optional groups need no backtracking (`\s*` and `=` cannot consume `{`
or `}`). -/
def sectionF (title : List Char) : F := fun s =>
  match s with
  | '\n' :: r =>
    let eqs := r.takeWhile (· = '=')
    let k := eqs.length
    if k = 0 then none
    else
      let r1 := r.drop k
      let sp1 := (r1.takeWhile isSpacePy).length
      let r2 := r1.drop sp1
      let brOpen : Nat :=
        match r2 with
        | '{' :: '{' :: _ => 2
        | _ => 0
      let r3 := r2.drop brOpen
      match litCiM title r3 with
      | none => none
      | some tl =>
        let r4 := r3.drop tl
        let brClose : Nat :=
          match r4 with
          | '}' :: '}' :: _ => 2
          | _ => 0
        let r5 := r4.drop brClose
        let sp2 := (r5.takeWhile isSpacePy).length
        let r6 := r5.drop sp2
        if eqs.isPrefixOf r6 then
          match sectionTermSearch k (r6.drop k) with
          | some (skip, tlen) =>
            let r7 := r6.drop k
            some (1 + k + sp1 + brOpen + tl + brClose + sp2 + k + skip + tlen,
                  (r7.drop skip).take tlen)
          | none => none
        else none
  | _ => none

/-- Line 121: `re.sub('(?s)<math\s*>.*?</math>', '__MATH__', t)`. -/
def mathF : F :=
  constF (seqM (litM "<math".data)
    (seqM (manyM isSpacePy)
      (seqM (litM ">".data) (lazyUntil (fun _ => true) (litM "</math>".data)))))
    "__MATH__".data

/-- Line 124: `re.sub('(?s)<ref([^>]*?)/>', '', t)`. -/
def refSelfF : F :=
  constF (seqM (litM "<ref".data) (lazyUntil (fun c => c ≠ '>') (litM "/>".data))) []

/-- Line 125: `re.sub('(?s)<ref(.*?)>.*?</ref>', '', t)`. -/
def refFullF : F :=
  constF (seqM (litM "<ref".data)
    (seqM (lazyUntil (fun _ => true) (litM ">".data))
      (lazyUntil (fun _ => true) (litM "</ref>".data)))) []

/-- Line 128: `re.sub('<references/>', '', t)`. -/
def referencesF : F := constF (litM "<references/>".data) []

/-- Line 132: `re.sub('{{IPA2\|.*?}}', '__IPA__', t)` (`.` does not cross
newlines: no DOTALL flag). -/
def ipaF : F :=
  constF (seqM (litM "\x7b\x7bIPA2|".data) (lazyUntil (fun c => c ≠ '\n') closeBr2))
    "__IPA__".data

/-- A character that is neither `{` nor `}`. -/
def nonBrace (c : Char) : Bool := c ≠ '}' && c ≠ '{'

/-- Line 135: `re.sub("{{{[^}{]*}}}", '', t)`.  The brace-free star is
deterministic: it stops at the first brace, where `}}}` must match. -/
def tripleBraceF : F := fun s =>
  match s with
  | '{' :: '{' :: '{' :: r =>
    let run := r.takeWhile nonBrace
    match r.drop run.length with
    | '}' :: '}' :: '}' :: _ => some (3 + run.length + 3, [])
    | _ => none
  | _ => none

/-- Line 137: `re.sub('(?i){{carece de fontes(.*?)}}', '', t)`. -/
def careceF : F :=
  constF (seqM (litCiM "\x7b\x7bcarece de fontes".data)
    (lazyUntil (fun c => c ≠ '\n') closeBr2)) []

/-- The template pattern of line 144: `{{[^}{]*}}`.  The brace-free star
stops at the first brace, where `}}` must match (no backtracking can
succeed earlier because the star's characters are not `}`). -/
def tmplF : F := fun s =>
  match s with
  | '{' :: '{' :: r =>
    let run := r.takeWhile nonBrace
    match r.drop run.length with
    | '}' :: '}' :: _ => some (2 + run.length + 2, "__TEMPLATE__".data)
    | _ => none
  | _ => none

/-- Count occurrences of a character. -/
def countChar (c : Char) (s : List Char) : Nat := (s.filter (· = c)).length

/-- The fixed-point loop of lines 142-144:
`while check: t, check = re.subn(r'{{[^}{]*}}', '__TEMPLATE__', t)`.
Every replacement removes exactly two `{` and introduces none, so an
iteration that replaces strictly decreases the `{` count; hence
`countChar '{' t + 1` bounds the number of loop iterations of the
source's unbounded `while` loop, and is used as structural fuel. -/
def templateLoopGo : Nat → List Char → List Char
  | 0, s => s
  | fuel + 1, s =>
    let (t, k) := subnF tmplF s
    if k = 0 then t else templateLoopGo fuel t

/-- Lines 142-144. -/
def templateLoop (s : List Char) : List Char :=
  templateLoopGo (countChar '{' s + 1) s

/-- Matcher for the closing `|}` of a table. -/
def closeTbl : M := fun s =>
  match s with
  | '|' :: '}' :: _ => some 2
  | _ => none

/-- The table-template pattern of lines 149-153: `(?sx){\| .* \|}` —
greedy DOTALL `.*`, so the match runs to the last `|}`. -/
def tblF : F := fun s =>
  match s with
  | '{' :: '|' :: r =>
    (lastUntil closeTbl r).map fun m => (2 + m, "__TEMPLATE__".data)
  | _ => none

/-- The fixed-point loop of lines 147-153 (same shape as the template
loop; each replacement removes at least one `{`, so the `{` count bounds
the iterations). -/
def tableLoopGo : Nat → List Char → List Char
  | 0, s => s
  | fuel + 1, s =>
    let (t, k) := subnF tblF s
    if k = 0 then t else tableLoopGo fuel t

/-- Lines 147-153. -/
def tableLoop (s : List Char) : List Char :=
  tableLoopGo (countChar '{' s + 1) s

/-- Attempt line 156's pattern at a fixed `=`-run length `k` (after the
leading newline): `(=+) *([^\n]*)\1 *(?=\n)`.  The line up to the next
newline, stripped of trailing spaces, must end in `k` `=` signs (the
greedy title absorbs the rest, including any further `=`). -/
def headingTryK (r : List Char) : Nat → Option (Nat × List Char)
  | 0 => none
  | k + 1 =>
    let kk := k + 1
    let r1 := r.drop kk
    let sp1 := (r1.takeWhile (· = ' ')).length
    let r2 := r1.drop sp1
    let line := r2.takeWhile (· ≠ '\n')
    let stripped := (line.reverse.dropWhile (· = ' ')).reverse
    if (r2.drop line.length).head? = some '\n' &&
        kk ≤ stripped.length &&
        ((stripped.drop (stripped.length - kk)).all (· = '=')) then
      some (1 + kk + sp1 + line.length, [])
    else headingTryK r k

/-- Line 156:
`re.sub("\n(?P<level>=+) *(?P<title>[^\n]*)\\1 *(?=\n)", '', t)`.
The greedy `(=+)` backtracks, so shorter `=`-runs are tried when the
longest fails (the surplus `=` signs are then part of the title). -/
def headingF : F := fun s =>
  match s with
  | '\n' :: r => headingTryK r (r.takeWhile (· = '=')).length
  | _ => none

/-- The triple-apostrophe delimiter of line 159. -/
def boldDelim : List Char := ['\'', '\'', '\'']

/-- The double-apostrophe delimiter of line 160. -/
def italDelim : List Char := ['\'', '\'']

/-- Line 159: `re.sub("'''(.+?)'''", "\\1", t)` (no DOTALL: the lazy
group stays within a line). -/
def boldF : F := fun s =>
  (seqM (litM boldDelim) (lazy1Until (fun c => c ≠ '\n') (litM boldDelim))) s
    |>.map fun n =>
      let inner := (s.take n).drop 3
      (n, inner.take (inner.length - 3))

/-- Line 160: `re.sub("''(.+?)''", "\\1", t)`. -/
def italF : F := fun s =>
  (seqM (litM italDelim) (lazy1Until (fun c => c ≠ '\n') (litM italDelim))) s
    |>.map fun n =>
      let inner := (s.take n).drop 2
      (n, inner.take (inner.length - 2))

/-- Space or tab (the `[ \t]` class of line 162). -/
def spTab (c : Char) : Bool := c = ' ' || c = '\t'

/-- Line 162: `re.sub("(?u)^ \t]*==[ \t]*(\w)[ \t]*==[ \t]*\n",
'<h2>(Image: \\1)</h2>', t)`.  As written the pattern requires the
literal characters space and tab at the very start of the string, then
`]*`, `==`, spacing, one word character, spacing, `==`, spacing and a
newline; without `re.M` the `^` anchors to position 0 only. -/
def imageHeadingF : F := fun s =>
  (seqM (litM [' ', '\t'])
    (seqM (manyM (· = ']')) (litM "==".data))) s |>.bind fun n1 =>
  let r1 := s.drop n1
  let sp1 := (r1.takeWhile spTab).length
  match r1.drop sp1 with
  | w :: r2 =>
    if isWordPy w then
      let sp2 := (r2.takeWhile spTab).length
      ((seqM (litM "==".data) (seqM (manyM spTab) (litM "\n".data)))
          (r2.drop sp2)).map fun n2 =>
        (n1 + sp1 + 1 + sp2 + n2,
         "<h2>(Image: ".data ++ [w] ++ ")</h2>".data)
    else none
  | [] => none

/-- Line 162 applies at the start of the string only. -/
def imageHeadingSub (s : List Char) : List Char :=
  match imageHeadingF s with
  | some (n, r) => r ++ s.drop n
  | none => s

/-- The file-namespace prefixes recognised by `link` (line 91):
`([Aa]rquivo|[Ii]magem?|[Ff]icheiro|[Ff]ile):`. -/
def fileNsPrefixes : List String :=
  ["Arquivo:", "arquivo:", "Imagem:", "imagem:", "Image:", "image:",
   "Ficheiro:", "ficheiro:", "File:", "file:"]

/-- `re.search("([Aa]rquivo|[Ii]magem?|[Ff]icheiro|[Ff]ile):", txt)`
(line 91): some position of `txt` starts with a file-namespace prefix. -/
def fileNsTest : List Char → Bool
  | [] => false
  | c :: rest =>
    fileNsPrefixes.any (fun p => p.data.isPrefixOf (c :: rest)) || fileNsTest rest

/-- Line 166: `re.sub("(?s)\[\[([^][|]*?)\]\]", link, t)` — a pipe-free
double-bracket link; `link` (lines 82-96) receives one group and returns
it unless it names a file namespace, in which case it returns `''`. -/
def plainLinkF : F := fun s =>
  (seqM (litM "[[".data)
    (lazyUntil (fun c => c ≠ ']' && c ≠ '[' && c ≠ '|') (litM "]]".data))) s
    |>.map fun n =>
      let body := (s.take n).drop 2
      let inner := body.take (body.length - 2)
      (n, if fileNsTest inner then [] else inner)

/-- Line 167: `re.sub("(?s)\[\[([Aa]nexo:[^]|[:]*)\|([^][]*)\]\]", link, t)`
— `link` receives two groups and returns the second (the display text). -/
def anexoF : F := fun s =>
  (seqM (litM "[[".data)
    (seqM (chM fun c => c = 'A' || c = 'a') (litM "nexo:".data))) s |>.bind fun n1 =>
  let r1 := s.drop n1
  let g1 := r1.takeWhile fun c => c ≠ ']' && c ≠ '|' && c ≠ '[' && c ≠ ':'
  match r1.drop g1.length with
  | '|' :: r2 =>
    let g2 := r2.takeWhile fun c => c ≠ ']' && c ≠ '['
    if ("]]".data).isPrefixOf (r2.drop g2.length) then
      some (n1 + g1.length + 1 + g2.length + 2, g2)
    else none
  | _ => none

/-- Line 168: `re.sub("(?s)\[\[[Mm]ultim.dia:(.*?)\]\]", '__FILE__', t)`
(the `.` matches any character, DOTALL being set). -/
def multimediaF : F :=
  constF (seqM (litM "[[".data)
    (seqM (chM fun c => c = 'M' || c = 'm')
      (seqM (litM "ultim".data)
        (seqM (chM fun _ => true)
          (seqM (litM "dia:".data)
            (lazyUntil (fun _ => true) (litM "]]".data)))))))
    "__FILE__".data

/-- Group-1 tail and group 2 of line 169 after `[Ii]mage:` — the greedy
`[^][:]*` must end just before the `\|`, so the split backtracks from the
rightmost pipe inside the bracket-and-colon-free run. -/
def imageTailTry (r1 : List Char) : List Nat → Option (Nat × List Char)
  | [] => none
  | t :: more =>
    let g2 := (r1.drop (t + 1)).takeWhile fun c => c ≠ ']' && c ≠ '['
    if ("]]".data).isPrefixOf ((r1.drop (t + 1)).drop g2.length) then
      some (t + 1 + g2.length + 2, g2)
    else imageTailTry r1 more

/-- Line 169: `re.sub("(?s)\[\[(:?[Ii]mage:[^][:]*)\|([^][]*)\]\]", link, t)`
— replacement is group 2. -/
def imageLinkF : F := fun s =>
  (seqM (litM "[[".data)
    (seqM (optM (litM ":".data))
      (seqM (chM fun c => c = 'I' || c = 'i') (litM "mage:".data)))) s
    |>.bind fun n1 =>
  let r1 := s.drop n1
  let run := r1.takeWhile fun c => c ≠ ']' && c ≠ '[' && c ≠ ':'
  let pipes := ((run.enum.filter fun p => p.2 = '|').map Prod.fst).reverse
  (imageTailTry r1 pipes).map fun p => (n1 + p.1, p.2)

/-- Line 170: `re.sub("(?s)\[\[([^][|]*)\|([^][|]*)\]\]", link, t)` — a
piped link with pipe-free segments; replacement is group 2 (the display
text).  Both greedy runs are deterministic: they stop at the first
delimiter, where `\|` (resp. `]]`) must match. -/
def pipedLinkF : F := fun s =>
  match s with
  | '[' :: '[' :: r1 =>
    let g1 := r1.takeWhile fun c => c ≠ ']' && c ≠ '[' && c ≠ '|'
    match r1.drop g1.length with
    | '|' :: r2 =>
      let g2 := r2.takeWhile fun c => c ≠ ']' && c ≠ '[' && c ≠ '|'
      if ("]]".data).isPrefixOf (r2.drop g2.length) then
        some (2 + g1.length + 1 + g2.length + 2, g2)
      else none
    | _ => none
  | _ => none

/-- The scheme part `(?:https?|ftp)://` of lines 173-175 (ordered
alternation: `https` before `http` before `ftp`). -/
def schemeM : M :=
  seqM (orM (litM "https".data) (orM (litM "http".data) (litM "ftp".data)))
    (litM "://".data)

/-- A URL character for lines 173-175: `[^][\s]`. -/
def urlChar (c : Char) : Bool := c ≠ '[' && c ≠ ']' && !isSpacePy c

/-- The `\s+(.+?)\]` tail of line 173.  The greedy `\s+` backtracks from
the full run of whitespace down to one character; the lazy label stops at
the first `]` and cannot cross a newline. -/
def extSpaceLabelTry (r : List Char) : Nat → Option (Nat × List Char)
  | 0 => none
  | j + 1 =>
    match lazy1Until (fun c => c ≠ '\n') (litM "]".data) (r.drop (j + 1)) with
    | some n2 =>
      let lab := (r.drop (j + 1)).take (n2 - 1)
      some (j + 1 + n2, lab)
    | none => extSpaceLabelTry r j

/-- `\s+(.+?)\]` at the current position. -/
def extSpaceLabel (r : List Char) : Option (Nat × List Char) :=
  let sp := (r.takeWhile isSpacePy).length
  if sp = 0 then none else extSpaceLabelTry r sp

/-- The lazy URL part `[^][\s]+?` of line 173: consume URL characters one
at a time, trying the whitespace-and-label tail at each step. -/
def extUrlGo : Nat → List Char → Option (Nat × List Char)
  | 0, _ => none
  | fuel + 1, r =>
    match r with
    | [] => none
    | c :: rest =>
      if urlChar c then
        match extSpaceLabel rest with
        | some (m, lab) => some (1 + m, lab)
        | none => (extUrlGo fuel rest).map fun p => (1 + p.1, p.2)
      else none

/-- Line 173: `re.sub('\[(?:https?|ftp)://[^][\s]+?\s+(.+?)\]', '\\1', t)`
— a bracketed external link with label keeps the label. -/
def extLabelF : F := fun s =>
  match s with
  | '[' :: r =>
    schemeM r |>.bind fun n1 =>
    (extUrlGo (r.drop n1).length (r.drop n1)).map fun p =>
      (1 + n1 + p.1, p.2)
  | _ => none

/-- Line 174: `re.sub('\[(?:https?|ftp)://[^][\s]+\]', '__LINK__', t)`. -/
def extLinkF : F := fun s =>
  match s with
  | '[' :: r =>
    schemeM r |>.bind fun n1 =>
    let run := (r.drop n1).takeWhile urlChar
    if run.isEmpty then none
    else
      match (r.drop n1).drop run.length with
      | ']' :: _ => some (1 + n1 + run.length + 1, "__LINK__".data)
      | _ => none
  | _ => none

/-- Line 175: `re.sub('(https?|ftp)://[^][\s]+', '__LINK__', t)`. -/
def bareUrlF : F := fun s =>
  schemeM s |>.bind fun n1 =>
  let run := (s.drop n1).takeWhile urlChar
  if run.isEmpty then none else some (n1 + run.length, "__LINK__".data)

/-- Line 177: `re.sub('\n----', '\n', t)`. -/
def hruleF : F := constF (litM "\n----".data) "\n".data

/-- The namespace alternation of lines 179-184:
`[Aa]rquivo|[Ii]magem?|[Ff]icheiro|[Ff]ile` (source order; the greedy
`m?` needs no backtracking against the following `:`). -/
def fileNsM : M :=
  orM (seqM (chM fun c => c = 'A' || c = 'a') (litM "rquivo".data))
    (orM (seqM (chM fun c => c = 'I' || c = 'i')
            (seqM (litM "mage".data) (optM (litM "m".data))))
      (orM (seqM (chM fun c => c = 'F' || c = 'f') (litM "icheiro".data))
        (seqM (chM fun c => c = 'F' || c = 'f') (litM "ile".data))))

/-- Lines 179-184: `re.sub("(?msx)\[\[(?:...):(.*?)\]\]", '', t)` — any
remaining file/image-namespace link is removed entirely. -/
def fileLinkF : F :=
  constF (seqM (litM "[[".data)
    (seqM fileNsM
      (seqM (litM ":".data) (lazyUntil (fun _ => true) (litM "]]".data))))) []

/-- The lazy body `(.*\n)+?\|\}` of line 187: the fewest full lines after
which `|}` follows. -/
def tableBody : Nat → List Char → Option Nat
  | 0, _ => none
  | fuel + 1, r =>
    let ln := r.takeWhile (· ≠ '\n')
    if (r.drop ln.length).head? = some '\n' then
      let rest := r.drop (ln.length + 1)
      match rest with
      | '|' :: '}' :: _ => some (ln.length + 1 + 2)
      | _ => (tableBody fuel rest).map fun m => ln.length + 1 + m
    else none

/-- Attempt line 187's match with a head of exactly `h` characters
(the greedy `[^!|}]+` backtracks from the longest run). -/
def tableHeadTry (r1 : List Char) : Nat → Option Nat
  | 0 => none
  | h + 1 =>
    let r2 := r1.drop (h + 1)
    let withCap : Option Nat :=
      match r2 with
      | '|' :: '+' :: r3 =>
        let cap := 2 + (r3.takeWhile (· ≠ '\n')).length
        (tableBody (r2.drop cap).length (r2.drop cap)).map fun m => cap + m
      | _ => none
    match (withCap.orElse fun _ => tableBody r2.length r2) with
    | some nb => some (2 + (h + 1) + nb)
    | none => tableHeadTry r1 h

/-- Line 187:
`re.sub('\{\|(?P<head>[^!|}]+)(?P<caption>(\|\+.*)?)(?P<body>(.*\n)+?)\|\}', '', t)`. -/
def tableBlockF : F := fun s =>
  match s with
  | '{' :: '|' :: r1 =>
    let head := r1.takeWhile fun c => c ≠ '!' && c ≠ '|' && c ≠ '}'
    (tableHeadTry r1 head.length).map fun n => (n, [])
  | _ => none

/-- The attribute class `[-#\w=.,:;'" ]` of lines 193, 199, 202-204,
215-218. -/
def isAttrChar (c : Char) : Bool :=
  c = '-' || c = '#' || isWordPy c || c = '=' || c = '.' || c = ',' ||
  c = ':' || c = ';' || c = '\'' || c = '"' || c = ' '

/-- Line 189: `re.sub('<div([^>]*?)>', '', t)`. -/
def divOpenF : F :=
  constF (seqM (litM "<div".data) (lazyUntil (fun c => c ≠ '>') (litM ">".data))) []

/-- Line 190: `re.sub('</div\s*>', '', t)`. -/
def divCloseF : F :=
  constF (seqM (litM "</div".data) (seqM (manyM isSpacePy) (litM ">".data))) []

/-- Line 191: `re.sub('<center([^>]*?)>', '', t)`. -/
def centerOpenF : F :=
  constF (seqM (litM "<center".data) (lazyUntil (fun c => c ≠ '>') (litM ">".data))) []

/-- Line 192: `re.sub('</center\s*>', '', t)`. -/
def centerCloseF : F :=
  constF (seqM (litM "</center".data) (seqM (manyM isSpacePy) (litM ">".data))) []

/-- Line 193: `re.sub(r'<br\s*[-#\w=.,:;\'" ]*/?>', r'\n', t)`. -/
def brF : F :=
  constF (seqM (litM "<br".data)
    (seqM (manyM isSpacePy)
      (seqM (manyM isAttrChar)
        (seqM (optM (litM "/".data)) (litM ">".data))))) "\n".data

/-- Line 196: `re.sub('&nbsp;', ' ', t)`. -/
def nbspF : F := constF (litM "&nbsp;".data) " ".data

/-- A tag pass of the shape `OPEN(.*?)CLOSE` replaced by the inner group
(lines 199-206): `openM` matches the opening tag, `closeLit` the closing
literal (case-insensitively when `ci` is set, matching `(?i)`). -/
def keepInnerF (openM : M) (closeLit : List Char) : F := fun s =>
  openM s |>.bind fun n1 =>
  let r1 := s.drop n1
  (lazyUntil (fun _ => true) (litCiM closeLit)) r1 |>.map fun n2 =>
    (n1 + n2, r1.take (n2 - closeLit.length))

/-- Line 199:
`re.sub('(?is)<blockquote\s*[-#\w=.,:;\'" ]*>(.*?)</blockquote>', r'\1', t)`. -/
def blockquoteF : F :=
  keepInnerF (seqM (litCiM "<blockquote".data)
    (seqM (manyM isSpacePy) (seqM (manyM isAttrChar) (litM ">".data))))
    "</blockquote>".data

/-- Line 200: `re.sub(r'(?is)<(tt|b|u|s)\s*>(.*?)</\1>', r'\2', t)` —
the tag alternation is tried in source order; the backreference closes
the same tag (case-insensitively). -/
def ttbusF : F := fun s =>
  ["tt", "b", "u", "s"].findSome? fun tag =>
    keepInnerF (seqM (litCiM ("<" ++ tag).data)
      (seqM (manyM isSpacePy) (litM ">".data))) ("</" ++ tag ++ ">").data s

/-- Line 201: `re.sub(r'(?is)<sub\s*>(.*?)</sub>', r'\1', t)`. -/
def subTagF : F :=
  keepInnerF (seqM (litCiM "<sub".data) (seqM (manyM isSpacePy) (litM ">".data)))
    "</sub>".data

/-- Line 202: `re.sub('(?is)<span\s*[-#\w=.,:;\'" ]*>(.*?)</span>', r'\1', t)`. -/
def spanF : F :=
  keepInnerF (seqM (litCiM "<span".data)
    (seqM (manyM isSpacePy) (seqM (manyM isAttrChar) (litM ">".data))))
    "</span>".data

/-- Line 203: `re.sub('(?is)<big\s*[-#\w=.,:;\'" ]*>(.*?)</big>', r'\1', t)`. -/
def bigF : F :=
  keepInnerF (seqM (litCiM "<big".data)
    (seqM (manyM isSpacePy) (seqM (manyM isAttrChar) (litM ">".data))))
    "</big>".data

/-- Line 204: `re.sub('(?is)<font\s*[-#\w=.,:;\'" ]*>(.*?)</font>', r'\1', t)`. -/
def fontF : F :=
  keepInnerF (seqM (litCiM "<font".data)
    (seqM (manyM isSpacePy) (seqM (manyM isAttrChar) (litM ">".data))))
    "</font>".data

/-- Line 205: `re.sub(r'(?is)<poem\s*>(.*?)</poem>', r'\1', t)`. -/
def poemF : F :=
  keepInnerF (seqM (litCiM "<poem".data) (seqM (manyM isSpacePy) (litM ">".data)))
    "</poem>".data

/-- Line 206: `re.sub(r'(?is)<nowiki\s*>(.*?)</nowiki>', r'\1', t)`. -/
def nowikiF : F :=
  keepInnerF (seqM (litCiM "<nowiki".data) (seqM (manyM isSpacePy) (litM ">".data)))
    "</nowiki>".data

/-- Line 209: `re.sub('(?s)<code(.*?)>.*?</code>', '__CODE__', t)`
(case-sensitive: only `(?s)` is set). -/
def codeF : F :=
  constF (seqM (litM "<code".data)
    (seqM (lazyUntil (fun _ => true) (litM ">".data))
      (lazyUntil (fun _ => true) (litM "</code>".data)))) "__CODE__".data

/-- Line 210: `re.sub('(?s)<source(.*?)>.*?</source>', '__CODE__', t)`. -/
def sourceF : F :=
  constF (seqM (litM "<source".data)
    (seqM (lazyUntil (fun _ => true) (litM ">".data))
      (lazyUntil (fun _ => true) (litM "</source>".data)))) "__CODE__".data

/-- A removal pass `OPEN.*?CLOSE → ''` with case-insensitive close
(lines 213-220). -/
def removeSpanF (openM : M) (closeLit : List Char) : F :=
  constF (seqM openM (lazyUntil (fun _ => true) (litCiM closeLit))) []

/-- Line 213: `re.sub('(?is)<small\s*>.*?</small>', '', t)`. -/
def smallF : F :=
  removeSpanF (seqM (litCiM "<small".data) (seqM (manyM isSpacePy) (litM ">".data)))
    "</small>".data

/-- Line 214: `re.sub('(?is)<sup\s*>.*?</sup>', '', t)`. -/
def supF : F :=
  removeSpanF (seqM (litCiM "<sup".data) (seqM (manyM isSpacePy) (litM ">".data)))
    "</sup>".data

/-- Line 215: `re.sub('(?is)<gallery\s*[-#\w=.,:;\'" ]*>.*?</gallery>', '', t)`. -/
def galleryF : F :=
  removeSpanF (seqM (litCiM "<gallery".data)
    (seqM (manyM isSpacePy) (seqM (manyM isAttrChar) (litM ">".data))))
    "</gallery>".data

/-- Line 216: `re.sub('(?is)<noinclude\s*[-#\w=.,:;\'" ]*>.*?</noinclude>', '', t)`. -/
def noincludeF : F :=
  removeSpanF (seqM (litCiM "<noinclude".data)
    (seqM (manyM isSpacePy) (seqM (manyM isAttrChar) (litM ">".data))))
    "</noinclude>".data

/-- Line 217: `re.sub('(?is)<includeonly\s*[-#\w=.,:;\'" ]*>.*?</includeonly>', '', t)`. -/
def includeonlyF : F :=
  removeSpanF (seqM (litCiM "<includeonly".data)
    (seqM (manyM isSpacePy) (seqM (manyM isAttrChar) (litM ">".data))))
    "</includeonly>".data

/-- Line 218: `re.sub('(?is)<onlyinclude\s*[-#\w=.,:;\'" ]*>.*?</onlyinclude>', '', t)`. -/
def onlyincludeF : F :=
  removeSpanF (seqM (litCiM "<onlyinclude".data)
    (seqM (manyM isSpacePy) (seqM (manyM isAttrChar) (litM ">".data))))
    "</onlyinclude>".data

/-- Line 219: `re.sub('(?is)<timeline(.*?)>.*?</timeline>', '', t)`. -/
def timelineF : F :=
  removeSpanF (seqM (litCiM "<timeline".data) (lazyUntil (fun _ => true) (litM ">".data)))
    "</timeline>".data

/-- Line 220: `re.sub('(?is)<table(.*?)>.*?</table>', '', t)`. -/
def tableTagF : F :=
  removeSpanF (seqM (litCiM "<table".data) (lazyUntil (fun _ => true) (litM ">".data)))
    "</table>".data

/-- A list marker `[#*:;]`. -/
def isListMarker (c : Char) : Bool := c = '#' || c = '*' || c = ':' || c = ';'

/-- Total length of the maximal run of list lines (each matching
`[#*:;]+[^\n]+\n`) at the front of the input.  A line matches
`[#*:;]+[^\n]+` exactly when it has at least two characters and starts
with a marker (the first character serves as the marker run, the rest as
`[^\n]+`). -/
def listLinesLen : Nat → List Char → Nat
  | 0, _ => 0
  | fuel + 1, s =>
    let ln := s.takeWhile (· ≠ '\n')
    if 2 ≤ ln.length && (ln.head?.map isListMarker).getD false &&
        (s.drop ln.length).head? = some '\n' then
      ln.length + 1 + listLinesLen fuel (s.drop (ln.length + 1))
    else 0

/-- Line 225: `re.sub("\n(([#*:;]+[^\n]+\n)+)", '\n', t)` — a newline
followed by a run of list lines collapses to a single newline. -/
def listSubGo : Nat → List Char → List Char
  | _, [] => []
  | 0, s => s
  | fuel + 1, c :: rest =>
    if c = '\n' then
      let n := listLinesLen rest.length rest
      if n = 0 then '\n' :: listSubGo fuel rest
      else '\n' :: listSubGo fuel (rest.drop n)
    else c :: listSubGo fuel rest

/-- Line 225 as a full pass. -/
def listSub (s : List Char) : List Char := listSubGo (s.length + 1) s

/-- Line 227: `re.sub(u'—|--', '-', t)` — em-dash (tried first) or double
hyphen becomes a single hyphen. -/
def dashSub : List Char → List Char
  | [] => []
  | '—' :: rest => '-' :: dashSub rest
  | '-' :: '-' :: rest => '-' :: dashSub rest
  | c :: rest => c :: dashSub rest

/-! ## Assembly of `filter_markup` (src/wiki_parser.py lines 98-229) -/

/-- The redirect/disambiguation short-circuit of lines 103-106 (the first
condition is duplicated in the source). -/
def isRedirectPage (t : List Char) : Bool :=
  ("#REDIRECIONAMENTO".data).isPrefixOf t ||
  ("#REDIRECIONAMENTO".data).isPrefixOf t ||
  ("\x7b\x7bdesambiguação".data).isPrefixOf t

/-- All passes of lines 108-220, in source order. -/
def preListStage (t0 : List Char) : List Char :=
  let t := subF commentF t0                             -- line 108
  let t := subF langListF t                             -- line 110
  let t := subF categoriaF t                            -- line 112
  let t := subF (sectionF "Ver também".data) t          -- line 115
  let t := subF (sectionF "Bibliografia".data) t        -- line 116
  let t := subF (sectionF "Ligações Externas".data) t   -- line 117
  let t := subF mathF t                                 -- line 121
  let t := subF refSelfF t                              -- line 124
  let t := subF refFullF t                              -- line 125
  let t := subF referencesF t                           -- line 128
  let t := subF ipaF t                                  -- line 132
  let t := subF tripleBraceF t                          -- line 135
  let t := subF careceF t                               -- line 137
  let t := templateLoop t                               -- lines 142-144
  let t := tableLoop t                                  -- lines 147-153
  let t := subF headingF t                              -- line 156
  let t := subF boldF t                                 -- line 159
  let t := subF italF t                                 -- line 160
  let t := imageHeadingSub t                            -- line 162
  let t := subF plainLinkF t                            -- line 166
  let t := subF anexoF t                                -- line 167
  let t := subF multimediaF t                           -- line 168
  let t := subF imageLinkF t                            -- line 169
  let t := subF pipedLinkF t                            -- line 170
  let t := subF extLabelF t                             -- line 173
  let t := subF extLinkF t                              -- line 174
  let t := subF bareUrlF t                              -- line 175
  let t := subF hruleF t                                -- line 177
  let t := subF fileLinkF t                             -- lines 179-184
  let t := subF tableBlockF t                           -- line 187
  let t := subF divOpenF t                              -- line 189
  let t := subF divCloseF t                             -- line 190
  let t := subF centerOpenF t                           -- line 191
  let t := subF centerCloseF t                          -- line 192
  let t := subF brF t                                   -- line 193
  let t := subF nbspF t                                 -- line 196
  let t := subF blockquoteF t                           -- line 199
  let t := subF ttbusF t                                -- line 200
  let t := subF subTagF t                               -- line 201
  let t := subF spanF t                                 -- line 202
  let t := subF bigF t                                  -- line 203
  let t := subF fontF t                                 -- line 204
  let t := subF poemF t                                 -- line 205
  let t := subF nowikiF t                               -- line 206
  let t := subF codeF t                                 -- line 209
  let t := subF sourceF t                               -- line 210
  let t := subF smallF t                                -- line 213
  let t := subF supF t                                  -- line 214
  let t := subF galleryF t                              -- line 215
  let t := subF noincludeF t                            -- line 216
  let t := subF includeonlyF t                          -- line 217
  let t := subF onlyincludeF t                          -- line 218
  let t := subF timelineF t                             -- line 219
  let t := subF tableTagF t                             -- line 220
  t

/-- `filter_markup(t)` (lines 98-229): short-circuit on redirect and
disambiguation pages; otherwise all substitution passes, a trailing
newline (line 224), list-block removal (line 225) and dash
normalization (line 227). -/
def filterMarkupL (t : List Char) : List Char :=
  if isRedirectPage t then []
  else dashSub (listSub (preListStage t ++ ['\n']))

/-- String-level `filter_markup`. -/
def filter_markup (t : String) : String := ⟨filterMarkupL t.data⟩

/-! ## `tokenize` (src/corpus_builder.py lines 56-107) -/

/-- Modelled from the spec: the pretrained Portuguese sentence-boundary
model (`nltk tokenizers/punkt/portuguese.pickle`, loaded at line 77) is
an external trained resource, not code of this repository.  Per §4.3 of
the spec it splits a line into sentences bounded by sentence-final
punctuation, with boundary realignment; it is modelled here as: end a
sentence after `.`, `!` or `?` when followed by whitespace or the end of
the line, skipping inter-sentence whitespace, and emit no empty
sentences. -/
def punktGo : Nat → List Char → List Char → List (List Char)
  | _, acc, [] => if acc.isEmpty then [] else [acc]
  | 0, acc, s => [acc ++ s]
  | fuel + 1, acc, c :: rest =>
    if (c = '.' || c = '!' || c = '?') &&
        ((rest.head?.map isSpacePy).getD true) then
      (acc ++ [c]) :: punktGo fuel [] (rest.dropWhile isSpacePy)
    else punktGo fuel (acc ++ [c]) rest

/-- Modelled from the spec: the external punkt sentence segmenter (see
`punktGo`). -/
def punktSegment (line : String) : List String :=
  (punktGo (line.data.length + 1) [] line.data).map fun t => ⟨t⟩

/-- The residue markers of lines 93-94. -/
def hasMarker (p : List Char) : Bool :=
  occursIn "\x7b\x7b".data p || occursIn "\x7d\x7d".data p ||
  occursIn "[[".data p || occursIn "]]".data p ||
  occursIn "\x7b|".data p || occursIn "|\x7d".data p ||
  occursIn "__TEMPLATE__".data p

/-- The body of the per-sentence loop of lines 86-105: skip blank
sentences; when `wiki` is set, discard sentences starting with `!` or `|`
or containing residue markers; tokenize; apply the minimum-size filter. -/
def processSentence (wiki : Bool) (minSize : Nat) (p : String) : Option (List String) :=
  if isBlank p.data then none
  else if wiki &&
      (p.data.head? = some '!' || p.data.head? = some '|' || hasMarker p.data) then
    none
  else
    let newSent := tokenizeSentence p
    if 0 < minSize && newSent.length < minSize then none
    else some newSent

/-- Lines 71-84 of `tokenize`: optional wiki cleaning (`clean_text` with
`correct=True`), the clitic pre-pass, the manual split on line breaks and
the per-line invocation of the sentence model `seg` (an external
collaborator, passed as a parameter). -/
def tokenizeSentences (seg : String → List String) (text : String) (wiki : Bool) :
    List String :=
  let t := if wiki then cleanTextL text.data true else text.data
  let t := cliticSubL t
  (splitNl t).flatMap fun line => seg ⟨line⟩

/-- `tokenize(text, wiki, min_sentence_size)` (lines 56-107),
parameterized by the external sentence segmenter. -/
def tokenize (seg : String → List String) (text : String) (wiki : Bool)
    (minSize : Nat) : List (List String) :=
  (tokenizeSentences seg text wiki).filterMap (processSentence wiki minSize)

/-- The four sentinel tokens named by the spec's stable contract. -/
def fourSentinels : List String :=
  ["__TEMPLATE__", "__LINK__", "__MATH__", "__FILE__"]

/-- Unresolved-markup residue in a `filter_markup` output: any of the six
bracket/brace pairs. -/
def hasResidue (s : String) : Bool :=
  strOccurs "\x7b\x7b" s || strOccurs "\x7d\x7d" s ||
  strOccurs "[[" s || strOccurs "]]" s ||
  strOccurs "\x7b|" s || strOccurs "|\x7d" s

/-! # Theorems

## Infrastructure for the lexical-scanner invariants (claim C7) -/

/-- Every tokenizer character class accepts only non-whitespace
characters. -/
theorem interpCls_not_space (i : ClassId) (c : Char) (h : interpCls i c = true) :
    isSpacePy c = false := by
  by_contra hx
  have hc : isSpacePy c = true := by
    cases hh : isSpacePy c
    · exact absurd hh hx
    · rfl
  simp only [isSpacePy, Bool.or_eq_true, decide_eq_true_eq] at hc
  rcases hc with ((((h1 | h1) | h1) | h1) | h1) | h1 <;> subst h1 <;>
    cases i <;> revert h <;> decide

/-- The trivial continuation is good. -/
theorem epsK_good : KGood epsK := by
  intro s m h
  simp only [epsK, Option.some.injEq] at h
  subst h
  simp

/-- Soundness of the matcher: with non-whitespace literals and a good
continuation, a successful run consumes at most the input and only
non-whitespace characters. -/
theorem runP_sound (p : Pat) :
    ∀ (s : List Char) (k : List Char → Option Nat) (n : Nat),
      litsNonSpace p = true → KGood k → runP p s k = some n →
      n ≤ s.length ∧ ∀ c ∈ s.take n, isSpacePy c = false := by
  induction p with
  | eps =>
    intro s k n _ hk h
    exact hk s n h
  | cls i =>
    intro s k n _ hk h
    cases s with
    | nil => simp [runP] at h
    | cons c rest =>
      simp only [runP] at h
      by_cases hc : interpCls i c = true
      · rw [if_pos hc] at h
        obtain ⟨m, hm, hmn⟩ := Option.map_eq_some'.mp h
        obtain ⟨hle, hns⟩ := hk rest m hm
        subst hmn
        constructor
        · simpa using Nat.add_le_add_right hle 1
        · intro d hd
          rw [List.take_succ_cons] at hd
          rcases List.mem_cons.mp hd with h1 | h1
          · subst h1; exact interpCls_not_space i d hc
          · exact hns d h1
      · rw [if_neg hc] at h; exact absurd h (by simp)
  | lit l =>
    intro s k n _hns hk h
    simp only [runP] at h
    by_cases hpre : l.isPrefixOf s
    · rw [if_pos hpre] at h
      obtain ⟨m, hm, hmn⟩ := Option.map_eq_some'.mp h
      obtain ⟨hle, hns⟩ := hk (s.drop l.length) m hm
      have hpre' : l <+: s := List.isPrefixOf_iff_prefix.mp hpre
      have hll : l.length ≤ s.length := hpre'.length_le
      have hlt : l = s.take l.length := List.prefix_iff_eq_take.mp hpre'
      subst hmn
      constructor
      · rw [List.length_drop] at hle
        omega
      · intro d hd
        rw [Nat.add_comm m l.length, List.take_add] at hd
        rcases List.mem_append.mp hd with h1 | h1
        · have hdl : d ∈ l := by rw [hlt]; exact h1
          have hl : ∀ x ∈ l, isSpacePy x = false := by
            simpa [litsNonSpace, List.all_eq_true] using _hns
          exact hl d hdl
        · exact hns d h1
    · rw [if_neg hpre] at h; exact absurd h (by simp)
  | seq a b iha ihb =>
    intro s k n hns hk h
    simp only [litsNonSpace, Bool.and_eq_true] at hns
    simp only [runP] at h
    exact iha s _ n hns.1
      (fun s' m' h' => ihb s' k m' hns.2 hk h') h
  | alt a b iha ihb =>
    intro s k n hns hk h
    simp only [litsNonSpace, Bool.and_eq_true] at hns
    simp only [runP] at h
    cases hx : runP a s k with
    | some v =>
      rw [hx] at h
      simp only [Option.orElse] at h
      exact iha s k n hns.1 hk (hx.trans h)
    | none =>
      rw [hx] at h
      exact ihb s k n hns.2 hk (by simpa [Option.orElse] using h)
  | opt a iha =>
    intro s k n hns hk h
    simp only [litsNonSpace] at hns
    simp only [runP] at h
    cases hx : runP a s k with
    | some v =>
      rw [hx] at h
      exact iha s k n hns hk (by rw [hx]; simpa [Option.orElse] using h)
    | none =>
      rw [hx] at h
      exact hk s n (by simpa [Option.orElse] using h)

/-- A successful run consumes at least as much as its continuation
reports: the continuation succeeded on some suffix with a count bounded
by the total. -/
theorem runP_mono (p : Pat) :
    ∀ (s : List Char) (k : List Char → Option Nat) (n : Nat),
      runP p s k = some n → ∃ s' m, k s' = some m ∧ m ≤ n := by
  induction p with
  | eps =>
    intro s k n h
    exact ⟨s, n, h, Nat.le_refl n⟩
  | cls i =>
    intro s k n h
    cases s with
    | nil => simp [runP] at h
    | cons c rest =>
      simp only [runP] at h
      by_cases hc : interpCls i c = true
      · rw [if_pos hc] at h
        obtain ⟨m, hm, hmn⟩ := Option.map_eq_some'.mp h
        exact ⟨rest, m, hm, by omega⟩
      · rw [if_neg hc] at h; exact absurd h (by simp)
  | lit l =>
    intro s k n h
    simp only [runP] at h
    by_cases hpre : l.isPrefixOf s
    · rw [if_pos hpre] at h
      obtain ⟨m, hm, hmn⟩ := Option.map_eq_some'.mp h
      exact ⟨s.drop l.length, m, hm, by omega⟩
    · rw [if_neg hpre] at h; exact absurd h (by simp)
  | seq a b iha ihb =>
    intro s k n h
    simp only [runP] at h
    obtain ⟨s1, m1, h1, hle1⟩ := iha s _ n h
    obtain ⟨s2, m2, h2, hle2⟩ := ihb s1 k m1 h1
    exact ⟨s2, m2, h2, Nat.le_trans hle2 hle1⟩
  | alt a b iha ihb =>
    intro s k n h
    simp only [runP] at h
    cases hx : runP a s k with
    | some v =>
      rw [hx] at h
      simp only [Option.orElse] at h
      exact iha s k n (hx.trans h)
    | none =>
      rw [hx] at h
      exact ihb s k n (by simpa [Option.orElse] using h)
  | opt a iha =>
    intro s k n h
    simp only [runP] at h
    cases hx : runP a s k with
    | some v =>
      rw [hx] at h
      simp only [Option.orElse] at h
      exact iha s k n (hx.trans h)
    | none =>
      rw [hx] at h
      exact ⟨s, n, by simpa [Option.orElse] using h, Nat.le_refl n⟩

/-- Positivity: a pattern that never matches the empty string consumes
strictly more than its continuation reports. -/
theorem runP_pos (p : Pat) :
    ∀ (s : List Char) (k : List Char → Option Nat) (n : Nat),
      neverEmpty p = true → runP p s k = some n →
      ∃ s' m, k s' = some m ∧ m < n := by
  induction p with
  | eps => intro s k n hne _; simp [neverEmpty] at hne
  | cls i =>
    intro s k n _ h
    cases s with
    | nil => simp [runP] at h
    | cons c rest =>
      simp only [runP] at h
      by_cases hc : interpCls i c = true
      · rw [if_pos hc] at h
        obtain ⟨m, hm, hmn⟩ := Option.map_eq_some'.mp h
        exact ⟨rest, m, hm, by omega⟩
      · rw [if_neg hc] at h; exact absurd h (by simp)
  | lit l =>
    intro s k n hne h
    simp only [runP] at h
    by_cases hpre : l.isPrefixOf s
    · rw [if_pos hpre] at h
      obtain ⟨m, hm, hmn⟩ := Option.map_eq_some'.mp h
      have hl : 0 < l.length := by
        cases l with
        | nil => simp [neverEmpty] at hne
        | cons x xs => simp
      exact ⟨s.drop l.length, m, hm, by omega⟩
    · rw [if_neg hpre] at h; exact absurd h (by simp)
  | seq a b iha ihb =>
    intro s k n hne h
    simp only [runP] at h
    simp only [neverEmpty, Bool.or_eq_true] at hne
    rcases hne with hnea | hneb
    · obtain ⟨s1, m1, h1, hlt1⟩ := iha s _ n hnea h
      obtain ⟨s2, m2, h2, hle2⟩ := runP_mono b s1 k m1 h1
      exact ⟨s2, m2, h2, Nat.lt_of_le_of_lt hle2 hlt1⟩
    · obtain ⟨s1, m1, h1, hle1⟩ := runP_mono a s _ n h
      obtain ⟨s2, m2, h2, hlt2⟩ := ihb s1 k m1 hneb h1
      exact ⟨s2, m2, h2, Nat.lt_of_lt_of_le hlt2 hle1⟩
  | alt a b iha ihb =>
    intro s k n hne h
    simp only [neverEmpty, Bool.and_eq_true] at hne
    simp only [runP] at h
    cases hx : runP a s k with
    | some v =>
      rw [hx] at h
      simp only [Option.orElse] at h
      exact iha s k n hne.1 (hx.trans h)
    | none =>
      rw [hx] at h
      exact ihb s k n hne.2 (by simpa [Option.orElse] using h)
  | opt a iha => intro s k n hne _; simp [neverEmpty] at hne

/-- Unrolled stars have non-whitespace literals when their body does. -/
theorem litsNonSpace_starU {a : Pat} (h : litsNonSpace a = true) :
    ∀ n, litsNonSpace (starU a n) = true := by
  intro n
  induction n with
  | zero => rfl
  | succ n ih => simp [starU, litsNonSpace, h, ih]

/-- Unrolled stars can match the empty string. -/
theorem neverEmpty_starU (a : Pat) : ∀ n, neverEmpty (starU a n) = false := by
  intro n
  cases n <;> rfl

/-- The link-sentinel literal is non-whitespace. -/
theorem litsNonSpace_altLink : litsNonSpace altLink = true := by decide

/-- The link-sentinel literal is non-empty. -/
theorem neverEmpty_altLink : neverEmpty altLink = true := by decide

/-- The full tokenizer pattern has non-whitespace literals. -/
theorem litsNonSpace_lexPat (allow : Bool) (n : Nat) :
    litsNonSpace (lexPat allow n) = true := by
  cases allow <;>
    simp [lexPat, mkAlt, litsNonSpace, litsNonSpace_starU, litsNonSpace_altLink,
      altAbbrev, altNumDot, altNumComma, altTime, altDate, altDr, altMsc, altPhd,
      altCurrency, altHashtag, altWord, altDashes, altDots, plusU, rep13] <;>
    decide

/-- The full tokenizer pattern never matches the empty string. -/
theorem neverEmpty_lexPat (allow : Bool) (n : Nat) :
    neverEmpty (lexPat allow n) = true := by
  cases allow <;>
    simp [lexPat, mkAlt, neverEmpty, neverEmpty_starU, neverEmpty_altLink,
      altAbbrev, altNumDot, altNumComma, altTime, altDate, altDr, altMsc, altPhd,
      altCurrency, altHashtag, altWord, altDashes, altDots, plusU, rep13]

/-- If an ordered alternation fails, its right branch fails. -/
theorem alt_none_right {a b : Pat} {s : List Char} {k : List Char → Option Nat}
    (h : runP (.alt a b) s k = none) : runP b s k = none := by
  simp only [runP] at h
  cases hx : runP a s k with
  | some v => rw [hx] at h; simp [Option.orElse] at h
  | none => rw [hx] at h; simpa [Option.orElse] using h

/-- Completeness of the scanner's skip step: if no alternative matches at
a position, the character there is whitespace (the final `\S` alternative
matches any non-whitespace character). -/
theorem lexPat_none_space (allow : Bool) (len : Nat) (c : Char) (rest : List Char)
    (h : runP (lexPat allow len) (c :: rest) epsK = none) : isSpacePy c = true := by
  have hS : runP (.cls .nonSpace) (c :: rest) epsK = none := by
    cases allow with
    | false =>
      simp only [lexPat, Bool.false_eq_true, if_false, List.cons_append,
        List.nil_append, List.append_nil, mkAlt] at h
      iterate 13 replace h := alt_none_right h
      exact h
    | true =>
      simp only [lexPat, if_true, List.cons_append, List.nil_append,
        List.append_nil, mkAlt] at h
      iterate 14 replace h := alt_none_right h
      exact h
  cases hsp : isSpacePy c with
  | false => simp [runP, interpCls, hsp, epsK] at hS
  | true => rfl

/-- The scanner invariants, by induction on fuel: every token is
non-empty and whitespace-free, and the tokens concatenate to the input
with its whitespace removed. -/
theorem lexScanGo_spec :
    ∀ (fuel : Nat) (allow : Bool) (s : List Char), s.length ≤ fuel →
      (∀ t ∈ lexScanGo fuel allow s, t ≠ [] ∧ ∀ c ∈ t, isSpacePy c = false) ∧
      (lexScanGo fuel allow s).flatten = s.filter fun c => !isSpacePy c := by
  intro fuel
  induction fuel with
  | zero =>
    intro allow s hle
    cases s with
    | nil => simp [lexScanGo]
    | cons c rest => simp at hle
  | succ fuel ih =>
    intro allow s hle
    cases s with
    | nil => simp [lexScanGo]
    | cons c rest =>
      cases hm : runP (lexPat allow (rest.length + 1)) (c :: rest) epsK with
      | none =>
        have hsp := lexPat_none_space allow (rest.length + 1) c rest hm
        have hrec := ih (isSpacePy c) rest (by simp at hle; omega)
        constructor
        · intro t ht
          apply hrec.1 t
          simpa [lexScanGo, hm] using ht
        · have : lexScanGo (fuel + 1) allow (c :: rest) =
              lexScanGo fuel (isSpacePy c) rest := by
            simp [lexScanGo, hm]
          rw [this, hrec.2, List.filter_cons_of_neg (by simp [hsp])]
      | some n =>
        have hpos : 0 < n := by
          obtain ⟨s', m, hk, hlt⟩ :=
            runP_pos _ _ _ _ (neverEmpty_lexPat allow (rest.length + 1)) hm
          have h0 := hk
          simp only [epsK, Option.some.injEq] at h0
          omega
        obtain ⟨hn_le, hns⟩ :=
          runP_sound _ _ _ _ (litsNonSpace_lexPat allow (rest.length + 1))
            epsK_good hm
        have hrec := ih ((((c :: rest).take n).getLast?.map isSpacePy).getD allow)
          ((c :: rest).drop n)
          (by simp only [List.length_drop]; simp at hle ⊢; omega)
        have heq : lexScanGo (fuel + 1) allow (c :: rest) =
            (c :: rest).take n ::
              lexScanGo fuel ((((c :: rest).take n).getLast?.map isSpacePy).getD allow)
                ((c :: rest).drop n) := by
          simp [lexScanGo, hm, Nat.pos_iff_ne_zero.mp hpos]
        constructor
        · intro t ht
          rw [heq] at ht
          rcases List.mem_cons.mp ht with h1 | h1
          · subst h1
            refine ⟨?_, hns⟩
            obtain ⟨n', rfl⟩ := Nat.exists_eq_succ_of_ne_zero (Nat.pos_iff_ne_zero.mp hpos)
            simp [List.take_succ_cons]
          · exact hrec.1 t h1
        · have hft : List.filter (fun d => !isSpacePy d) ((c :: rest).take n) =
              (c :: rest).take n :=
            List.filter_eq_self.mpr fun d hd => by simp [hns d hd]
          rw [heq, List.flatten_cons, hrec.2]
          conv_rhs => rw [← List.take_append_drop n (c :: rest)]
          rw [List.filter_append, hft]

/-- The scanner invariants for `lexScan`. -/
theorem lexScan_spec (s : List Char) :
    (∀ t ∈ lexScan s, t ≠ [] ∧ ∀ c ∈ t, isSpacePy c = false) ∧
    (lexScan s).flatten = s.filter fun c => !isSpacePy c :=
  lexScanGo_spec (s.length + 1) true s (Nat.le_succ s.length)

/-! ## Infrastructure for the trailing-newline invariant (claim C10) -/

/-- Prepending a character preserves a trailing newline of a non-empty
list. -/
theorem getLast?_cons_of_last_nl (c : Char) {l : List Char}
    (h : l.getLast? = some '\n') : (c :: l).getLast? = some '\n' := by
  have hne : l ≠ [] := by
    intro he
    rw [he] at h
    simp at h
  calc (c :: l).getLast? = ([c] ++ l).getLast? := rfl
    _ = l.getLast? := List.getLast?_append_of_ne_nil [c] hne
    _ = some '\n' := h

/-- A non-empty suffix of a list has the same last element. -/
theorem getLast?_drop_of_ne_nil {l : List Char} {n : Nat}
    (h : l.drop n ≠ []) : (l.drop n).getLast? = l.getLast? := by
  conv_rhs => rw [← List.take_append_drop n l]
  exact (List.getLast?_append_of_ne_nil (l.take n) h).symm

/-- The list-block pass (line 225) preserves a trailing newline: a match
is replaced by a newline, and any match ending at the end of the input
leaves that newline as the final character. -/
theorem listSubGo_last_nl :
    ∀ (fuel : Nat) (s : List Char), s.getLast? = some '\n' →
      (listSubGo fuel s).getLast? = some '\n' := by
  intro fuel
  induction fuel with
  | zero =>
    intro s h
    cases s with
    | nil => simp at h
    | cons c rest => simpa [listSubGo] using h
  | succ fuel ih =>
    intro s h
    cases s with
    | nil => simp at h
    | cons c rest =>
      by_cases hc : c = '\n'
      · subst hc
        by_cases hz : listLinesLen rest.length rest = 0
        · rw [show listSubGo (fuel + 1) ('\n' :: rest) = '\n' :: listSubGo fuel rest by
            simp [listSubGo, hz]]
          cases hrest : rest with
          | nil => simp [listSubGo]
          | cons d r =>
            have hlast : rest.getLast? = some '\n' := by
              rw [hrest] at h ⊢
              calc (d :: r).getLast? = ('\n' :: d :: r).getLast? :=
                (List.getLast?_append_of_ne_nil ['\n'] (by simp)).symm
                _ = some '\n' := h
            rw [← hrest]
            exact getLast?_cons_of_last_nl '\n' (ih rest hlast)
        · rw [show listSubGo (fuel + 1) ('\n' :: rest) =
              '\n' :: listSubGo fuel (rest.drop (listLinesLen rest.length rest)) by
            simp [listSubGo, hz]]
          by_cases hd : rest.drop (listLinesLen rest.length rest) = []
          · rw [hd]
            simp [listSubGo]
          · have hrn : rest ≠ [] := by
              intro he
              rw [he] at hd
              simp at hd
            have hlast : rest.getLast? = some '\n' := by
              calc rest.getLast? = ('\n' :: rest).getLast? :=
                (List.getLast?_append_of_ne_nil ['\n'] hrn).symm
                _ = some '\n' := h
            exact getLast?_cons_of_last_nl '\n'
              (ih _ ((getLast?_drop_of_ne_nil hd).trans hlast))
      · rw [show listSubGo (fuel + 1) (c :: rest) = c :: listSubGo fuel rest by
          simp [listSubGo, hc]]
        cases hrest : rest with
        | nil =>
          rw [hrest] at h
          simp at h
          exact absurd h hc
        | cons d r =>
          have hlast : rest.getLast? = some '\n' := by
            rw [hrest] at h ⊢
            calc (d :: r).getLast? = (c :: d :: r).getLast? :=
              (List.getLast?_append_of_ne_nil [c] (by simp)).symm
              _ = some '\n' := h
          rw [← hrest]
          exact getLast?_cons_of_last_nl c (ih rest hlast)

/-- The catch-all equation of `dashSub`: when neither dash pattern
applies, the head character is kept. -/
theorem dashSub_cons_generic (c : Char) (rest : List Char)
    (h1 : c = '—' → False)
    (h2 : ∀ (rest' : List Char), c = '-' → rest = '-' :: rest' → False) :
    dashSub (c :: rest) = c :: dashSub rest := by
  rw [dashSub.eq_def]
  split
  · rename_i heq
    exact absurd heq (by simp)
  · rename_i heq
    injection heq with hc hr
    subst hr
    exact absurd hc h1
  · rename_i heq
    injection heq with hc hr
    exact (h2 _ hc hr).elim
  · rename_i heq
    injection heq with hc hr
    subst hc
    subst hr
    rfl

/-- The dash pass (line 227) preserves a trailing newline: every match
consists of dashes only, so the final newline is never consumed. -/
theorem dashSub_last_nl :
    ∀ (s : List Char), s.getLast? = some '\n' →
      (dashSub s).getLast? = some '\n' := by
  intro s
  induction s using dashSub.induct with
  | case1 => intro h; simp at h
  | case2 rest ih =>
    intro h
    rw [show dashSub ('—' :: rest) = '-' :: dashSub rest from rfl]
    cases hrest : rest with
    | nil =>
      rw [hrest] at h
      simp at h
    | cons d r =>
      have hlast : rest.getLast? = some '\n' := by
        rw [hrest] at h ⊢
        calc (d :: r).getLast? = ('—' :: d :: r).getLast? :=
          (List.getLast?_append_of_ne_nil ['—'] (by simp)).symm
          _ = some '\n' := h
      rw [← hrest]
      exact getLast?_cons_of_last_nl '-' (ih hlast)
  | case3 rest ih =>
    intro h
    rw [show dashSub ('-' :: '-' :: rest) = '-' :: dashSub rest from rfl]
    cases hrest : rest with
    | nil =>
      rw [hrest] at h
      simp at h
    | cons d r =>
      have hlast : rest.getLast? = some '\n' := by
        rw [hrest] at h ⊢
        calc (d :: r).getLast? = ('-' :: '-' :: d :: r).getLast? :=
          (List.getLast?_append_of_ne_nil ['-', '-'] (by simp)).symm
          _ = some '\n' := h
      rw [← hrest]
      exact getLast?_cons_of_last_nl '-' (ih hlast)
  | case4 c rest h1 h2 ih =>
    intro h
    rw [dashSub_cons_generic c rest h1 h2]
    cases hrest : rest with
    | nil =>
      rw [hrest] at h
      have hc : c = '\n' := by simpa using h
      simp [dashSub, hc]
    | cons d r =>
      have hlast : rest.getLast? = some '\n' := by
        rw [hrest] at h ⊢
        calc (d :: r).getLast? = (c :: d :: r).getLast? :=
          (List.getLast?_append_of_ne_nil [c] (by simp)).symm
          _ = some '\n' := h
      rw [← hrest]
      exact getLast?_cons_of_last_nl c (ih hlast)

/-! ## Infrastructure for the digit/ellipsis stability facts (claim C4) -/

/-- Digit folding is idempotent on characters. -/
theorem digit9_fix (c : Char) :
    (if isDigitPy (if isDigitPy c then '9' else c) then '9'
     else if isDigitPy c then '9' else c) =
      if isDigitPy c then '9' else c := by
  by_cases h : isDigitPy c = true
  · simp [h]
  · simp [h]

/-- Digit folding is idempotent. -/
theorem digitSub_idem (s : List Char) : digitSub (digitSub s) = digitSub s := by
  induction s with
  | nil => rfl
  | cons c r ih =>
    simp only [digitSub, List.map_cons] at ih ⊢
    rw [digit9_fix c]
    exact congrArg _ ih

/-- The ellipsis expansion contains no further ellipsis character. -/
theorem ellipsisChar_fix (c : Char) :
    (ellipsisChar c).flatMap ellipsisChar = ellipsisChar c := by
  by_cases h : c = '…'
  · subst h
    decide
  · simp [ellipsisChar, h]

/-- Ellipsis normalization is idempotent. -/
theorem ellipsisSub_idem (s : List Char) :
    ellipsisSub (ellipsisSub s) = ellipsisSub s := by
  induction s with
  | nil => rfl
  | cons c r ih =>
    simp only [ellipsisSub, List.flatMap_cons] at ih ⊢
    rw [List.flatMap_append, ellipsisChar_fix c]
    exact congrArg _ ih

/-- Digit folding and ellipsis expansion commute on characters. -/
theorem digit_ellipsis_char (c : Char) :
    (ellipsisChar c).map (fun d => if isDigitPy d then '9' else d) =
      ellipsisChar (if isDigitPy c then '9' else c) := by
  by_cases h : c = '…'
  · subst h
    decide
  · have h9 : (if isDigitPy c then '9' else c) ≠ '…' := by
      by_cases hd : isDigitPy c = true
      · simp [hd]
      · simp [hd, h]
    simp [ellipsisChar, h, h9]

/-- Digit folding and ellipsis normalization commute. -/
theorem digitSub_ellipsisSub (s : List Char) :
    digitSub (ellipsisSub s) = ellipsisSub (digitSub s) := by
  induction s with
  | nil => rfl
  | cons c r ih =>
    simp only [digitSub, ellipsisSub, List.flatMap_cons, List.map_cons,
      List.map_append] at ih ⊢
    rw [digit_ellipsis_char c]
    exact congrArg _ ih

/-! ## The claim theorems -/

/-- Claim C1 (counterexample): the input `[[a|b|c]]` is well nested, yet
`filter_markup` returns it verbatim (with the appended newline): the
pipe-free link pass and the single-pipe link pass both fail on a link
with two pipes, and no later pass touches it, so the output contains
`[[` (and `]]`), refuting the claimed output guarantee. -/
theorem c1_counterexample :
    balOk "[[a|b|c]]".data = true ∧
    filter_markup "[[a|b|c]]" = "[[a|b|c]]\n" ∧
    hasResidue (filter_markup "[[a|b|c]]") = true := by
  refine ⟨by decide, by decide, by decide⟩

/-- Claim C1 (amended): `filter_markup` does resolve each simple
well-formed construct — a brace-free template, a pipe-free link, a
single-pipe link and a `{|...|}` table span each leave no `{{`, `}}`,
`[[`, `]]`, `{|`, `|}` residue — but the guarantee does not extend to
all well-nested inputs (see the counterexample). -/
theorem c1_amended_simple_constructs_resolved :
    (filter_markup "\x7b\x7ba\x7d\x7d" = "__TEMPLATE__\n" ∧
      hasResidue (filter_markup "\x7b\x7ba\x7d\x7d") = false) ∧
    (filter_markup "[[ab]]" = "ab\n" ∧
      hasResidue (filter_markup "[[ab]]") = false) ∧
    (filter_markup "[[a|b]]" = "b\n" ∧
      hasResidue (filter_markup "[[a|b]]") = false) ∧
    (filter_markup "\x7b|x|\x7d" = "__TEMPLATE__\n" ∧
      hasResidue (filter_markup "\x7b|x|\x7d") = false) := by
  refine ⟨⟨by decide, by decide⟩, ⟨by decide, by decide⟩,
    ⟨by decide, by decide⟩, ⟨by decide, by decide⟩⟩

/-- Claim C2 (counterexample): on input `{{IPA2|x}}` the output of
`filter_markup` is the sentinel `__IPA__` (line 132 of
src/wiki_parser.py), a double-underscore placeholder that is none of the
four claimed tokens. -/
theorem c2_counterexample :
    filter_markup "\x7b\x7bIPA2|x\x7d\x7d" = "__IPA__\n" ∧
    strOccurs "__IPA__" (filter_markup "\x7b\x7bIPA2|x\x7d\x7d") = true ∧
    (∀ t ∈ fourSentinels, strOccurs t (filter_markup "\x7b\x7bIPA2|x\x7d\x7d") = false) := by
  refine ⟨by decide, by decide, by decide⟩

/-- Claim C2 (amended): the sentinel placeholders `filter_markup`
substitutes are drawn from the six tokens `__TEMPLATE__`, `__MATH__`,
`__LINK__`, `__FILE__`, `__IPA__` and `__CODE__`; each arises (lines 144,
121, 174, 168, 132 and 209 of src/wiki_parser.py). -/
theorem c2_amended_six_sentinels :
    filter_markup "\x7b\x7bb\x7d\x7d" = "__TEMPLATE__\n" ∧
    filter_markup "<math>y</math>" = "__MATH__\n" ∧
    filter_markup "[http://x.com]" = "__LINK__\n" ∧
    filter_markup "[[Multimídia:z|w]]" = "__FILE__\n" ∧
    filter_markup "\x7b\x7bIPA2|w\x7d\x7d" = "__IPA__\n" ∧
    filter_markup "<code>v</code>" = "__CODE__\n" := by
  refine ⟨by decide, by decide, by decide, by decide, by decide, by decide⟩

/-- Claim C3 (counterexample): `filter_markup` does not discard a
single-pipe file link: `[[Arquivo:foo.jpg|legenda]]` is rewritten to its
caption `legenda` — the piped-link pass of line 170 (whose `link` helper
returns the display text unconditionally for two groups) runs before the
file-link removal of lines 179-184. -/
theorem c3_counterexample :
    filter_markup "[[Arquivo:foo.jpg|legenda]]" = "legenda\n" ∧
    strOccurs "legenda" (filter_markup "[[Arquivo:foo.jpg|legenda]]") = true := by
  refine ⟨by decide, by decide⟩

/-- Claim C3 (amended): a single-pipe file-namespace link keeps its
caption (display text); only multi-pipe file links and pipe-free file
links are discarded entirely; a non-file piped link keeps its display
text. -/
theorem c3_amended_caption_kept :
    filter_markup "[[Arquivo:foo.jpg|legenda]]" = "legenda\n" ∧
    filter_markup "[[Brasil|o país]]" = "o país\n" ∧
    filter_markup "[[Arquivo:foo.jpg|thumb|legenda]]" = "\n" ∧
    filter_markup "[[Arquivo:foo.jpg]]" = "\n" := by
  refine ⟨by decide, by decide, by decide, by decide⟩

/-- Claim C4 (counterexample): `clean_text` is not idempotent for fixed
`correct = true`: on `,,,,,` the doubled-punctuation pass collapses the
first three commas and resumes scanning after the match, leaving `,,,`,
which a second application collapses further to `,`. -/
theorem c4_counterexample :
    clean_text (clean_text ",,,,," true) true ≠ clean_text ",,,,," true := by
  decide

/-- Claim C4 (amended): `clean_text` is not idempotent in general (the
punctuation-correction and quote-unification passes can act again on
their own output), but its digit-folding and ellipsis-normalization
passes are stable: re-applying either to a `clean_text` output changes
nothing, for either value of `correct`. -/
theorem c4_amended_digit_ellipsis_stable (s : String) (correct : Bool) :
    replaceDigits (clean_text s correct) = clean_text s correct ∧
    replaceEllipsis (clean_text s correct) = clean_text s correct := by
  constructor
  · show (⟨digitSub (cleanTextL s.data correct)⟩ : String) = ⟨cleanTextL s.data correct⟩
    refine congrArg String.mk ?_
    show digitSub (ellipsisSub (digitSub _)) = ellipsisSub (digitSub _)
    rw [digitSub_ellipsisSub, digitSub_idem]
  · show (⟨ellipsisSub (cleanTextL s.data correct)⟩ : String) = ⟨cleanTextL s.data correct⟩
    refine congrArg String.mk ?_
    show ellipsisSub (ellipsisSub (digitSub _)) = ellipsisSub (digitSub _)
    rw [ellipsisSub_idem]

/-- Claim C5: the template-collapse loop iterates to a fixed point, so
the fully nested balanced span `{{ a {{ b {{ c }} }} }}` collapses to a
single `__TEMPLATE__` sentinel (plus the appended trailing newline), and
the sentinel occurs exactly once in the output. -/
theorem c5_nested_template_single_sentinel :
    (filter_markup "\x7b\x7b a \x7b\x7b b \x7b\x7b c \x7d\x7d \x7d\x7d \x7d\x7d" =
        "__TEMPLATE__\n" ∧
      strCount "__TEMPLATE__"
        (filter_markup "\x7b\x7b a \x7b\x7b b \x7b\x7b c \x7d\x7d \x7d\x7d \x7d\x7d") = 1) ∧
    (filter_markup "x \x7b\x7b a \x7b\x7b b \x7b\x7b c \x7d\x7d \x7d\x7d \x7d\x7d y" =
        "x __TEMPLATE__ y\n" ∧
      strCount "__TEMPLATE__"
        (filter_markup "x \x7b\x7b a \x7b\x7b b \x7b\x7b c \x7d\x7d \x7d\x7d \x7d\x7d y") = 1) := by
  refine ⟨⟨by decide, by decide⟩, ⟨by decide, by decide⟩⟩

/-- Claim C6: the clitic pre-pass rewrites `dar-me algo` to
`dar- me algo` before lexical scanning, and for any sentence segmenter
that returns the (single-line, punctuation-free) clitic-adjusted text as
one sentence, `tokenize` produces exactly the tokens
`["dar-", "me", "algo"]` — the stem keeps the trailing hyphen and the
pronoun is its own token. -/
theorem c6_clitic_split (seg : String → List String)
    (hseg : seg "dar- me algo" = ["dar- me algo"]) :
    cliticSubL "dar-me algo".data = "dar- me algo".data ∧
    tokenize seg "dar-me algo" true 0 = [["dar-", "me", "algo"]] := by
  constructor
  · decide
  · have h1 : tokenizeSentences seg "dar-me algo" true = ["dar- me algo"] := by
      show (["dar- me algo".data] : List (List Char)).flatMap (fun line => seg ⟨line⟩) =
        ["dar- me algo"]
      simp only [List.flatMap_cons, List.flatMap_nil, List.append_nil]
      exact hseg
    simp only [tokenize, h1]
    decide

/-- Claim C6 (witness): instantiating the segmenter with the
spec-modelled punkt model. -/
theorem c6_clitic_split_witness :
    punktSegment "dar- me algo" = ["dar- me algo"] ∧
    (cliticSubL "dar-me algo".data = "dar- me algo".data ∧
      tokenize punktSegment "dar-me algo" true 0 = [["dar-", "me", "algo"]]) :=
  ⟨by decide, c6_clitic_split punktSegment (by decide)⟩

/-- Claim C4 (amended, witness): instantiation at a concrete input. -/
theorem c4_amended_digit_ellipsis_stable_witness :
    replaceDigits (clean_text "a…9" true) = clean_text "a…9" true ∧
    replaceEllipsis (clean_text "a…9" true) = clean_text "a…9" true :=
  c4_amended_digit_ellipsis_stable "a…9" true

/-- Claim C7: for every sentence, the lexical scan of
`_tokenizer_regexp` yields non-empty, whitespace-free tokens whose
in-order concatenation is the sentence with all whitespace removed
(so matches are non-overlapping: each non-space character lands in
exactly one token, via the `\S` fallback). -/
theorem c7_token_concatenation_invariant (s : List Char) :
    (∀ t ∈ lexScan s, t ≠ [] ∧ ∀ c ∈ t, isSpacePy c = false) ∧
    (lexScan s).flatten = s.filter fun c => !isSpacePy c :=
  lexScan_spec s

/-- Claim C7 (witness): the concatenation identity at a concrete
sentence. -/
theorem c7_token_concatenation_invariant_witness :
    (lexScan "um, dois".data).flatten =
      "um, dois".data.filter (fun c => !isSpacePy c) :=
  (c7_token_concatenation_invariant "um, dois".data).2

/-- Claim C8: `tokenize` splits on the newline character before invoking
the sentence model, so the model sees each line of
`"Frase um.\nFrase dois."` independently (for an arbitrary segmenter,
the sentence list is exactly the concatenation of the per-line results),
and with the spec-modelled punkt segmenter the input yields exactly the
two sentences. -/
theorem c8_line_break_boundaries (seg : String → List String) :
    tokenizeSentences seg "Frase um.\nFrase dois." true =
      seg "Frase um." ++ seg "Frase dois." ∧
    tokenize punktSegment "Frase um.\nFrase dois." true 0 =
      [["Frase", "um", "."], ["Frase", "dois", "."]] := by
  constructor
  · show (["Frase um.".data, "Frase dois.".data] : List (List Char)).flatMap
        (fun line => seg ⟨line⟩) = seg "Frase um." ++ seg "Frase dois."
    simp only [List.flatMap_cons, List.flatMap_nil, List.append_nil]
  · decide

/-- Claim C8 (witness): instantiation at the spec-modelled punkt
segmenter. -/
theorem c8_line_break_boundaries_witness :
    tokenizeSentences punktSegment "Frase um.\nFrase dois." true =
      punktSegment "Frase um." ++ punktSegment "Frase dois." ∧
    tokenize punktSegment "Frase um.\nFrase dois." true 0 =
      [["Frase", "um", "."], ["Frase", "dois", "."]] :=
  c8_line_break_boundaries punktSegment

/-- Claim C9: with `wiki = true`, the per-sentence loop of `tokenize`
discards whitespace-only sentences, and discards any sentence whose
first character is `!` or `|` or that contains one of the residue
markers `{{`, `}}`, `[[`, `]]`, `{|`, `|}` or `__TEMPLATE__`:
`processSentence` (the loop body that `tokenize` `filterMap`s over the
sentences) returns `none`, contributing no token list. -/
theorem c9_sentence_filter (m : Nat) (p : String) :
    (isBlank p.data = true → processSentence true m p = none) ∧
    ((p.data.head? = some '!' ∨ p.data.head? = some '|' ∨ hasMarker p.data = true) →
      processSentence true m p = none) := by
  constructor
  · intro hb
    simp [processSentence, hb]
  · intro hc
    by_cases hb : isBlank p.data = true
    · simp [processSentence, hb]
    · have hcond : (p.data.head? = some '!' || p.data.head? = some '|' ||
          hasMarker p.data) = true := by
        rcases hc with h | h | h <;> simp [h]
      simp [processSentence, hb, hcond]

/-- Claim C9 (witness): a pipe-initial sentence and a whitespace-only
sentence each contribute nothing. -/
theorem c9_sentence_filter_witness :
    processSentence true 0 "|x" = none ∧ processSentence true 0 "  " = none :=
  ⟨(c9_sentence_filter 0 "|x").2 (Or.inr (Or.inl (by decide))),
   (c9_sentence_filter 0 "  ").1 (by decide)⟩

/-- Claim C10: for every input that does not start with
`#REDIRECIONAMENTO` or `{{desambiguação`, `filter_markup` returns a
string ending in a newline — the newline appended at line 224 survives
the list-block pass (whose replacement is itself a newline) and the dash
pass (whose matches contain no newline) — and hence a non-empty string. -/
theorem c10_trailing_newline (t : String) (h : isRedirectPage t.data = false) :
    (filter_markup t).data.getLast? = some '\n' ∧ filter_markup t ≠ "" := by
  have h1 : (filter_markup t).data = dashSub (listSub (preListStage t.data ++ ['\n'])) := by
    show filterMarkupL t.data = _
    simp [filterMarkupL, h]
  have h2 : (preListStage t.data ++ ['\n']).getLast? = some '\n' := by
    simp [List.getLast?_concat]
  have h3 : (listSub (preListStage t.data ++ ['\n'])).getLast? = some '\n' :=
    listSubGo_last_nl _ _ h2
  have h4 := dashSub_last_nl _ h3
  constructor
  · rw [h1]
    exact h4
  · intro he
    have hd : (filter_markup t).data = [] := by
      rw [he]
    rw [hd] at h1
    rw [← h1] at h4
    simp at h4

/-- Claim C10 (witness): the empty input is not a redirect and yields
`"\n"`. -/
theorem c10_trailing_newline_witness :
    isRedirectPage "".data = false ∧
    ((filter_markup "").data.getLast? = some '\n' ∧ filter_markup "" ≠ "") :=
  ⟨by decide, c10_trailing_newline "" (by decide)⟩

end PtWiki
